import Mathlib

/-!
Verification of the `retro-dat` DAT-file reader.

The development shallowly embeds the library's data model (`lib.rs`), its
attribute-coercion rules (`xml_attr.rs`), its per-element capability tables
(`xml_element.rs`) and the recursive-descent driver
(`DatReader::read_all` / `read_content` / `skip_content`,
`XmlCursor::apply_attrs`).  The token source (quick-xml) is abstracted as a
list of already-decoded structural events, which is the interface the driver
consumes: start tags with their attribute lists, decoded text/CDATA runs and
end tags; end of input is the end of the list (quick-xml's `Eof` event is
sticky, which the list end models exactly).
-/

/-- Mirrors `enum ForceMerging` in `lib.rs`. -/
inductive ForceMerging where
  | None
  | Split
  | Full
deriving DecidableEq

/-- Mirrors `impl Default for ForceMerging` (`ForceMerging::Split`). -/
instance : Inhabited ForceMerging := ⟨ForceMerging.Split⟩

/-- Mirrors `enum ForceNoDump` in `lib.rs`. -/
inductive ForceNoDump where
  | Obsolete
  | Required
  | Ignore
deriving DecidableEq

/-- Mirrors `impl Default for ForceNoDump` (`ForceNoDump::Obsolete`). -/
instance : Inhabited ForceNoDump := ⟨ForceNoDump.Obsolete⟩

/-- Mirrors `enum ForcePacking` in `lib.rs`. -/
inductive ForcePacking where
  | Zip
  | Unzip
deriving DecidableEq

/-- Mirrors `impl Default for ForcePacking` (`ForcePacking::Zip`). -/
instance : Inhabited ForcePacking := ⟨ForcePacking.Zip⟩

/-- Mirrors `enum RomMode` in `lib.rs`. -/
inductive RomMode where
  | Merged
  | Split
  | Unmerged
deriving DecidableEq

/-- Mirrors `impl Default for RomMode` (`RomMode::Split`). -/
instance : Inhabited RomMode := ⟨RomMode.Split⟩

/-- Mirrors `enum SampleMode` in `lib.rs`. -/
inductive SampleMode where
  | Merged
  | Unmerged
deriving DecidableEq

/-- Mirrors `impl Default for SampleMode` (`SampleMode::Merged`). -/
instance : Inhabited SampleMode := ⟨SampleMode.Merged⟩

/-- Mirrors `enum Status` in `lib.rs`. -/
inductive Status where
  | BadDump
  | NoDump
  | Good
  | Verified
deriving DecidableEq

/-- Mirrors `impl Default for Status` (`Status::Good`). -/
instance : Inhabited Status := ⟨Status.Good⟩

/-- Mirrors `struct ClrMamePro` in `lib.rs`. -/
structure ClrMamePro where
  header : String
  force_merging : ForceMerging
  force_no_dump : ForceNoDump
  force_packing : ForcePacking
deriving DecidableEq

/-- Mirrors the derived `Default` for `ClrMamePro`. -/
instance : Inhabited ClrMamePro :=
  ⟨{ header := "", force_merging := default, force_no_dump := default,
     force_packing := default }⟩

/-- Mirrors `struct RomCenter` in `lib.rs`. -/
structure RomCenter where
  plugin : String
  rom_mode : RomMode
  bios_mode : RomMode
  sample_mode : SampleMode
  lock_rom_mode : Bool
  lock_bios_mode : Bool
  lock_sample_mode : Bool
deriving DecidableEq

/-- Mirrors the derived `Default` for `RomCenter`. -/
instance : Inhabited RomCenter :=
  ⟨{ plugin := "", rom_mode := default, bios_mode := default,
     sample_mode := default, lock_rom_mode := false, lock_bios_mode := false,
     lock_sample_mode := false }⟩

/-- Mirrors `struct Header` in `lib.rs`. -/
structure Header where
  name : String
  description : String
  category : String
  version : String
  date : String
  author : String
  email : String
  homepage : String
  url : String
  comment : String
  clr_mame_pro : Option ClrMamePro
  rom_center : Option RomCenter
deriving DecidableEq

/-- Mirrors the derived `Default` for `Header`: the optional tool profiles
start out absent (`None`), not defaulted. -/
instance : Inhabited Header :=
  ⟨{ name := "", description := "", category := "", version := "", date := "",
     author := "", email := "", homepage := "", url := "", comment := "",
     clr_mame_pro := none, rom_center := none }⟩

/-- Mirrors `struct Release` in `lib.rs`. -/
structure Release where
  name : String
  region : String
  language : String
  date : String
  default : Bool
deriving DecidableEq

/-- Mirrors the derived `Default` for `Release`. -/
instance : Inhabited Release :=
  ⟨{ name := "", region := "", language := "", date := "", default := false }⟩

/-- Mirrors `struct BiosSet` in `lib.rs`. -/
structure BiosSet where
  name : String
  description : String
  default : Bool
deriving DecidableEq

/-- Mirrors the derived `Default` for `BiosSet`. -/
instance : Inhabited BiosSet :=
  ⟨{ name := "", description := "", default := false }⟩

/-- Modelled from the spec: the repository's `xml_element.rs` resolves a
`sha256` attribute to `self.sha256`, but the `struct Rom` declaration in the
checked-in `lib.rs` snapshot predates that impl and lacks the field; the
spec's schema contract lists `sha256` among the `rom` attributes, so the
field is included here.  All other fields mirror `struct Rom` in `lib.rs`. -/
structure Rom where
  name : String
  size : String
  crc : String
  sha1 : String
  sha256 : String
  md5 : String
  merge : String
  status : Status
  date : String
  serial : String
deriving DecidableEq

/-- Mirrors the derived `Default` for `Rom`: in particular
`status` defaults to `Status::Good`. -/
instance : Inhabited Rom :=
  ⟨{ name := "", size := "", crc := "", sha1 := "", sha256 := "", md5 := "",
     merge := "", status := default, date := "", serial := "" }⟩

/-- Mirrors `struct Disk` in `lib.rs`. -/
structure Disk where
  name : String
  sha1 : String
  md5 : String
  merge : String
  status : Status
deriving DecidableEq

/-- Mirrors the derived `Default` for `Disk`. -/
instance : Inhabited Disk :=
  ⟨{ name := "", sha1 := "", md5 := "", merge := "", status := default }⟩

/-- Mirrors `struct Sample` in `lib.rs`. -/
structure Sample where
  name : String
deriving DecidableEq

/-- Mirrors the derived `Default` for `Sample`. -/
instance : Inhabited Sample := ⟨{ name := "" }⟩

/-- Mirrors `struct Archive` in `lib.rs`. -/
structure Archive where
  name : String
deriving DecidableEq

/-- Mirrors the derived `Default` for `Archive`. -/
instance : Inhabited Archive := ⟨{ name := "" }⟩

/-- Modelled from the spec: the repository's `xml_element.rs` resolves `id`
and `cloneofid` attributes to `self.id` and `self.clone_of_id`, but the
`struct Game` declaration in the checked-in `lib.rs` snapshot predates that
impl and lacks the two fields; the spec's schema contract lists `id` and
`cloneofid` among the `game` attributes, so the fields are included here.
All other fields mirror `struct Game` in `lib.rs`. -/
structure Game where
  id : String
  name : String
  description : String
  is_bios : Bool
  source_file : String
  clone_of : String
  clone_of_id : String
  rom_of : String
  sample_of : String
  board : String
  rebuild_to : String
  comments : List String
  year : String
  manufacturer : String
  releases : List Release
  bios_sets : List BiosSet
  roms : List Rom
  disks : List Disk
  samples : List Sample
  archives : List Archive
deriving DecidableEq

/-- Mirrors the derived `Default` for `Game`. -/
instance : Inhabited Game :=
  ⟨{ id := "", name := "", description := "", is_bios := false,
     source_file := "", clone_of := "", clone_of_id := "", rom_of := "",
     sample_of := "", board := "", rebuild_to := "", comments := [],
     year := "", manufacturer := "", releases := [], bios_sets := [],
     roms := [], disks := [], samples := [], archives := [] }⟩

/-- Mirrors `struct DataFile` in `lib.rs`. -/
structure DataFile where
  build : String
  debug : Bool
  header : Option Header
  games : List Game
deriving DecidableEq

/-- Mirrors the derived `Default` for `DataFile`. -/
instance : Inhabited DataFile :=
  ⟨{ build := "", debug := false, header := none, games := [] }⟩

/-!
## Value coercion (`xml_attr.rs`)

Each Rust `impl XmlAttr for T` mutates the field in place and returns a
success flag.  The functional mirror takes the field's current value and the
attribute text and returns the flag together with the field's new value; a
failing coercion returns the value unchanged, exactly as the Rust `return
false` paths leave the field untouched.
-/

/-- Mirrors `impl XmlAttr for String`: clear then push, always succeeds. -/
def String.set_from_str (_self : String) (value : String) : Bool × String :=
  (true, value)

/-- Mirrors `impl XmlAttr for bool`: only the literals yes/no succeed. -/
def Bool.set_from_str (self : Bool) (value : String) : Bool × Bool :=
  match value with
  | "yes" => (true, true)
  | "no" => (true, false)
  | _ => (false, self)

/-- Mirrors `impl XmlAttr for ForceMerging`. -/
def ForceMerging.set_from_str (self : ForceMerging) (value : String) :
    Bool × ForceMerging :=
  match value with
  | "none" => (true, ForceMerging.None)
  | "split" => (true, ForceMerging.Split)
  | "full" => (true, ForceMerging.Full)
  | _ => (false, self)

/-- Mirrors `impl XmlAttr for ForceNoDump`. -/
def ForceNoDump.set_from_str (self : ForceNoDump) (value : String) :
    Bool × ForceNoDump :=
  match value with
  | "obsolete" => (true, ForceNoDump.Obsolete)
  | "required" => (true, ForceNoDump.Required)
  | "ignore" => (true, ForceNoDump.Ignore)
  | _ => (false, self)

/-- Mirrors `impl XmlAttr for ForcePacking`. -/
def ForcePacking.set_from_str (self : ForcePacking) (value : String) :
    Bool × ForcePacking :=
  match value with
  | "zip" => (true, ForcePacking.Zip)
  | "unzip" => (true, ForcePacking.Unzip)
  | _ => (false, self)

/-- Mirrors `impl XmlAttr for RomMode`. -/
def RomMode.set_from_str (self : RomMode) (value : String) : Bool × RomMode :=
  match value with
  | "merged" => (true, RomMode.Merged)
  | "split" => (true, RomMode.Split)
  | "unmerged" => (true, RomMode.Unmerged)
  | _ => (false, self)

/-- Mirrors `impl XmlAttr for SampleMode`. -/
def SampleMode.set_from_str (self : SampleMode) (value : String) :
    Bool × SampleMode :=
  match value with
  | "merged" => (true, SampleMode.Merged)
  | "unmerged" => (true, SampleMode.Unmerged)
  | _ => (false, self)

/-- Mirrors `impl XmlAttr for Status`. -/
def Status.set_from_str (self : Status) (value : String) : Bool × Status :=
  match value with
  | "baddump" => (true, Status.BadDump)
  | "nodump" => (true, Status.NoDump)
  | "good" => (true, Status.Good)
  | "verified" => (true, Status.Verified)
  | _ => (false, self)

/-!
## Structural events and the element sum

`Event` is the interface offered by the token source (quick-xml with
`trim_text(true)` and `expand_empty_elements(true)`): start tags with their
decoded attribute list, decoded text/CDATA runs, and end tags.  The end of
the event list is end of input; quick-xml's `Eof` is sticky, so a consumer
that returns with input exhausted leaves every later read at `Eof` too,
which the empty list models.
-/

/-- One structural event from the token source. -/
inductive Event where
  | startTag (tag : String) (attrs : List (String × String))
  | text (content : String)
  | endTag (tag : String)
deriving DecidableEq

/-- The closed sum of every type implementing the `XmlElement` trait.  The
Rust driver works through `&mut dyn XmlElement`; this sum is the value such
a trait object can hold. -/
inductive Elem where
  | str (s : String)
  | dataFile (d : DataFile)
  | header (h : Header)
  | clrMamePro (c : ClrMamePro)
  | romCenter (r : RomCenter)
  | game (g : Game)
  | release (r : Release)
  | biosSet (b : BiosSet)
  | rom (r : Rom)
  | disk (d : Disk)
  | sample (s : Sample)
  | archive (a : Archive)
deriving DecidableEq

/-!
## Attribute tables (`XmlElement::attr` composed with `set_from_str`)

Each Rust `attr` impl resolves a key to a mutable field reference, to which
`apply_attrs` then applies `set_from_str`.  The functional mirror fuses the
two: `T.attr_set self key value` is `none` when `attr` returns `None`, and
`some (ok, self')` when the key resolves, where `ok` is the coercion's flag
and `self'` the struct with the resolved field set to the coerced value.
-/

/-- Mirrors `impl XmlElement for DataFile`: `attr`. -/
def DataFile.attr_set (d : DataFile) (key value : String) :
    Option (Bool × DataFile) :=
  match key with
  | "build" =>
    let r := d.build.set_from_str value
    some (r.1, { d with build := r.2 })
  | "debug" =>
    let r := d.debug.set_from_str value
    some (r.1, { d with debug := r.2 })
  | _ => none

/-- Mirrors `impl XmlElement for ClrMamePro`: `attr`. -/
def ClrMamePro.attr_set (c : ClrMamePro) (key value : String) :
    Option (Bool × ClrMamePro) :=
  match key with
  | "header" =>
    let r := c.header.set_from_str value
    some (r.1, { c with header := r.2 })
  | "forcemerging" =>
    let r := c.force_merging.set_from_str value
    some (r.1, { c with force_merging := r.2 })
  | "forcenodump" =>
    let r := c.force_no_dump.set_from_str value
    some (r.1, { c with force_no_dump := r.2 })
  | "forcepacking" =>
    let r := c.force_packing.set_from_str value
    some (r.1, { c with force_packing := r.2 })
  | _ => none

/-- Mirrors `impl XmlElement for RomCenter`: `attr`. -/
def RomCenter.attr_set (c : RomCenter) (key value : String) :
    Option (Bool × RomCenter) :=
  match key with
  | "plugin" =>
    let r := c.plugin.set_from_str value
    some (r.1, { c with plugin := r.2 })
  | "rommode" =>
    let r := c.rom_mode.set_from_str value
    some (r.1, { c with rom_mode := r.2 })
  | "biosmode" =>
    let r := c.bios_mode.set_from_str value
    some (r.1, { c with bios_mode := r.2 })
  | "samplemode" =>
    let r := c.sample_mode.set_from_str value
    some (r.1, { c with sample_mode := r.2 })
  | "lockrommode" =>
    let r := c.lock_rom_mode.set_from_str value
    some (r.1, { c with lock_rom_mode := r.2 })
  | "lockbiosmode" =>
    let r := c.lock_bios_mode.set_from_str value
    some (r.1, { c with lock_bios_mode := r.2 })
  | "locksamplemode" =>
    let r := c.lock_sample_mode.set_from_str value
    some (r.1, { c with lock_sample_mode := r.2 })
  | _ => none

/-- Mirrors `impl XmlElement for Game`: `attr`. -/
def Game.attr_set (g : Game) (key value : String) : Option (Bool × Game) :=
  match key with
  | "id" =>
    let r := g.id.set_from_str value
    some (r.1, { g with id := r.2 })
  | "name" =>
    let r := g.name.set_from_str value
    some (r.1, { g with name := r.2 })
  | "sourcefile" =>
    let r := g.source_file.set_from_str value
    some (r.1, { g with source_file := r.2 })
  | "isbios" =>
    let r := g.is_bios.set_from_str value
    some (r.1, { g with is_bios := r.2 })
  | "cloneof" =>
    let r := g.clone_of.set_from_str value
    some (r.1, { g with clone_of := r.2 })
  | "cloneofid" =>
    let r := g.clone_of_id.set_from_str value
    some (r.1, { g with clone_of_id := r.2 })
  | "romof" =>
    let r := g.rom_of.set_from_str value
    some (r.1, { g with rom_of := r.2 })
  | "sampleof" =>
    let r := g.sample_of.set_from_str value
    some (r.1, { g with sample_of := r.2 })
  | "board" =>
    let r := g.board.set_from_str value
    some (r.1, { g with board := r.2 })
  | "rebuildto" =>
    let r := g.rebuild_to.set_from_str value
    some (r.1, { g with rebuild_to := r.2 })
  | _ => none

/-- Mirrors `impl XmlElement for Release`: `attr`. -/
def Release.attr_set (x : Release) (key value : String) :
    Option (Bool × Release) :=
  match key with
  | "name" =>
    let r := x.name.set_from_str value
    some (r.1, { x with name := r.2 })
  | "region" =>
    let r := x.region.set_from_str value
    some (r.1, { x with region := r.2 })
  | "language" =>
    let r := x.language.set_from_str value
    some (r.1, { x with language := r.2 })
  | "date" =>
    let r := x.date.set_from_str value
    some (r.1, { x with date := r.2 })
  | "default" =>
    let r := x.default.set_from_str value
    some (r.1, { x with default := r.2 })
  | _ => none

/-- Mirrors `impl XmlElement for BiosSet`: `attr`. -/
def BiosSet.attr_set (x : BiosSet) (key value : String) :
    Option (Bool × BiosSet) :=
  match key with
  | "name" =>
    let r := x.name.set_from_str value
    some (r.1, { x with name := r.2 })
  | "description" =>
    let r := x.description.set_from_str value
    some (r.1, { x with description := r.2 })
  | "default" =>
    let r := x.default.set_from_str value
    some (r.1, { x with default := r.2 })
  | _ => none

/-- Mirrors `impl XmlElement for Rom`: `attr`. -/
def Rom.attr_set (x : Rom) (key value : String) : Option (Bool × Rom) :=
  match key with
  | "name" =>
    let r := x.name.set_from_str value
    some (r.1, { x with name := r.2 })
  | "size" =>
    let r := x.size.set_from_str value
    some (r.1, { x with size := r.2 })
  | "crc" =>
    let r := x.crc.set_from_str value
    some (r.1, { x with crc := r.2 })
  | "sha1" =>
    let r := x.sha1.set_from_str value
    some (r.1, { x with sha1 := r.2 })
  | "sha256" =>
    let r := x.sha256.set_from_str value
    some (r.1, { x with sha256 := r.2 })
  | "md5" =>
    let r := x.md5.set_from_str value
    some (r.1, { x with md5 := r.2 })
  | "merge" =>
    let r := x.merge.set_from_str value
    some (r.1, { x with merge := r.2 })
  | "status" =>
    let r := x.status.set_from_str value
    some (r.1, { x with status := r.2 })
  | "date" =>
    let r := x.date.set_from_str value
    some (r.1, { x with date := r.2 })
  | "serial" =>
    let r := x.serial.set_from_str value
    some (r.1, { x with serial := r.2 })
  | _ => none

/-- Mirrors `impl XmlElement for Disk`: `attr`. -/
def Disk.attr_set (x : Disk) (key value : String) : Option (Bool × Disk) :=
  match key with
  | "name" =>
    let r := x.name.set_from_str value
    some (r.1, { x with name := r.2 })
  | "sha1" =>
    let r := x.sha1.set_from_str value
    some (r.1, { x with sha1 := r.2 })
  | "md5" =>
    let r := x.md5.set_from_str value
    some (r.1, { x with md5 := r.2 })
  | "merge" =>
    let r := x.merge.set_from_str value
    some (r.1, { x with merge := r.2 })
  | "status" =>
    let r := x.status.set_from_str value
    some (r.1, { x with status := r.2 })
  | _ => none

/-- Mirrors `impl XmlElement for Sample`: `attr`. -/
def Sample.attr_set (x : Sample) (key value : String) :
    Option (Bool × Sample) :=
  match key with
  | "name" =>
    let r := x.name.set_from_str value
    some (r.1, { x with name := r.2 })
  | _ => none

/-- Mirrors `impl XmlElement for Archive`: `attr`. -/
def Archive.attr_set (x : Archive) (key value : String) :
    Option (Bool × Archive) :=
  match key with
  | "name" =>
    let r := x.name.set_from_str value
    some (r.1, { x with name := r.2 })
  | _ => none

/-!
## Child tables (`XmlElement::child`) and their write-backs

A Rust `child` impl binds an `XmlCursor` — a static tag label paired with a
mutable borrow of the child node — possibly after pushing a fresh default
element onto an owning sequence or lazily creating an optional singleton.
The functional mirror splits the borrow into two halves: `T.child` returns
the cursor as a `(label, value)` pair (the value is what the borrow points
at when the cursor is created), and `T.install` writes the finished child
value back into the parent when the borrow ends, i.e. when the child's
subtree has been fully read.  A pushed fresh element therefore appears in
its owning sequence exactly once, appended in document order.
-/

/-- Mirrors `impl XmlElement for DataFile`: `child`.  `header` is
get-or-insert (binds the existing profile if present, a default otherwise);
`game` pushes a fresh `Game::default()` and binds it. -/
def DataFile.child (d : DataFile) (tag : String) : Option (String × Elem) :=
  match tag with
  | "header" => some ("header", Elem.header (d.header.getD default))
  | "game" => some ("game", Elem.game default)
  | _ => none

/-- Write-back for `DataFile.child`: the finished `header` borrow leaves the
option `Some`; the finished `game` borrow is the pushed last element of
`games`. -/
def DataFile.install (d : DataFile) (tag : String) (e : Elem) : DataFile :=
  match tag, e with
  | "header", Elem.header h => { d with header := some h }
  | "game", Elem.game g => { d with games := d.games ++ [g] }
  | _, _ => d

/-- Mirrors `impl XmlElement for Header`: `child`.  The ten text leaves bind
the current field content (a `String` implements `XmlElement` through
`content`); `clrmamepro`/`romcenter` are get-or-insert. -/
def Header.child (h : Header) (tag : String) : Option (String × Elem) :=
  match tag with
  | "name" => some ("name", Elem.str h.name)
  | "description" => some ("description", Elem.str h.description)
  | "category" => some ("category", Elem.str h.category)
  | "version" => some ("version", Elem.str h.version)
  | "date" => some ("date", Elem.str h.date)
  | "author" => some ("author", Elem.str h.author)
  | "email" => some ("email", Elem.str h.email)
  | "homepage" => some ("homepage", Elem.str h.homepage)
  | "url" => some ("url", Elem.str h.url)
  | "comment" => some ("comment", Elem.str h.comment)
  | "clrmamepro" =>
    some ("clrmamepro", Elem.clrMamePro (h.clr_mame_pro.getD default))
  | "romcenter" =>
    some ("romcenter", Elem.romCenter (h.rom_center.getD default))
  | _ => none

/-- Write-back for `Header.child`. -/
def Header.install (h : Header) (tag : String) (e : Elem) : Header :=
  match tag, e with
  | "name", Elem.str s => { h with name := s }
  | "description", Elem.str s => { h with description := s }
  | "category", Elem.str s => { h with category := s }
  | "version", Elem.str s => { h with version := s }
  | "date", Elem.str s => { h with date := s }
  | "author", Elem.str s => { h with author := s }
  | "email", Elem.str s => { h with email := s }
  | "homepage", Elem.str s => { h with homepage := s }
  | "url", Elem.str s => { h with url := s }
  | "comment", Elem.str s => { h with comment := s }
  | "clrmamepro", Elem.clrMamePro c => { h with clr_mame_pro := some c }
  | "romcenter", Elem.romCenter r => { h with rom_center := some r }
  | _, _ => h

/-- Mirrors `impl XmlElement for Game`: `child`.  `name`, `description`,
`year` and `manufacturer` bind the field's current content; `comment`
pushes a fresh empty string onto `comments`; the six repeatable structured
children push a fresh default element onto their owning sequence. -/
def Game.child (g : Game) (tag : String) : Option (String × Elem) :=
  match tag with
  | "name" => some ("name", Elem.str g.name)
  | "description" => some ("description", Elem.str g.description)
  | "comment" => some ("comment", Elem.str "")
  | "year" => some ("year", Elem.str g.year)
  | "manufacturer" => some ("manufacturer", Elem.str g.manufacturer)
  | "release" => some ("release", Elem.release default)
  | "biosset" => some ("biosset", Elem.biosSet default)
  | "rom" => some ("rom", Elem.rom default)
  | "disk" => some ("disk", Elem.disk default)
  | "sample" => some ("sample", Elem.sample default)
  | "archive" => some ("archive", Elem.archive default)
  | _ => none

/-- Write-back for `Game.child`. -/
def Game.install (g : Game) (tag : String) (e : Elem) : Game :=
  match tag, e with
  | "name", Elem.str s => { g with name := s }
  | "description", Elem.str s => { g with description := s }
  | "comment", Elem.str s => { g with comments := g.comments ++ [s] }
  | "year", Elem.str s => { g with year := s }
  | "manufacturer", Elem.str s => { g with manufacturer := s }
  | "release", Elem.release r => { g with releases := g.releases ++ [r] }
  | "biosset", Elem.biosSet b => { g with bios_sets := g.bios_sets ++ [b] }
  | "rom", Elem.rom r => { g with roms := g.roms ++ [r] }
  | "disk", Elem.disk d => { g with disks := g.disks ++ [d] }
  | "sample", Elem.sample s => { g with samples := g.samples ++ [s] }
  | "archive", Elem.archive a => { g with archives := g.archives ++ [a] }
  | _, _ => g

/-- Dispatch of `XmlElement::attr` + `set_from_str` over the element sum.
Types without an `attr` impl (`String`, `Header`) use the trait default,
which resolves nothing. -/
def Elem.attr_set (e : Elem) (key value : String) : Option (Bool × Elem) :=
  match e with
  | .str _ => none
  | .dataFile d => (d.attr_set key value).map fun r => (r.1, .dataFile r.2)
  | .header _ => none
  | .clrMamePro c => (c.attr_set key value).map fun r => (r.1, .clrMamePro r.2)
  | .romCenter c => (c.attr_set key value).map fun r => (r.1, .romCenter r.2)
  | .game g => (g.attr_set key value).map fun r => (r.1, .game r.2)
  | .release x => (x.attr_set key value).map fun r => (r.1, .release r.2)
  | .biosSet x => (x.attr_set key value).map fun r => (r.1, .biosSet r.2)
  | .rom x => (x.attr_set key value).map fun r => (r.1, .rom r.2)
  | .disk x => (x.attr_set key value).map fun r => (r.1, .disk r.2)
  | .sample x => (x.attr_set key value).map fun r => (r.1, .sample r.2)
  | .archive x => (x.attr_set key value).map fun r => (r.1, .archive r.2)

/-- Dispatch of `XmlElement::child` over the element sum.  Types without a
`child` impl use the trait default, which resolves nothing. -/
def Elem.child (e : Elem) (tag : String) : Option (String × Elem) :=
  match e with
  | .dataFile d => d.child tag
  | .header h => h.child tag
  | .game g => g.child tag
  | _ => none

/-- Write-back of a finished child borrow into its parent element.  Only the
three types with a `child` impl can hold a borrow. -/
def Elem.install (e : Elem) (tag : String) (ce : Elem) : Elem :=
  match e with
  | .dataFile d => .dataFile (d.install tag ce)
  | .header h => .header (h.install tag ce)
  | .game g => .game (g.install tag ce)
  | _ => e

/-- Mirrors the `Text`/`CData` arm of `read_content`: if the bound node
exposes `content()` (only `String` does), the decoded text is pushed onto
the buffer; otherwise the text is discarded. -/
def Elem.push_content (e : Elem) (s : String) : Elem :=
  match e with
  | .str c => .str (c ++ s)
  | _ => e

/-- Projection used by `read_all`: the cursor for a `datafile` element
borrows the `DataFile` stored in `result`, so after the borrow ends the
updated document is the `.dataFile` payload.  The fallback is never taken
(reading preserves the element's variant). -/
def Elem.get_data_file (e : Elem) (orelse : DataFile) : DataFile :=
  match e with
  | .dataFile d => d
  | _ => orelse

/-!
## Errors (`DatReaderError`) and the driver
-/

/-- Mirrors `enum DatReaderError`; the only `quick_xml::Error` this driver
itself constructs is `UnexpectedEof(msg)`, carried here as `Xml msg`. -/
inductive DatReaderError where
  | Xml (msg : String)
  | UnexpectedAttribute (msg : String)
  | UnexpectedElement (msg : String)
deriving DecidableEq

/-- Mirrors `XmlCursor::apply_attrs`: each attribute is resolved against the
bound element and coerced; an unresolved key or a failed coercion aborts
with `UnexpectedAttribute` in strict mode and is dropped in lenient mode,
the remaining attributes still being applied. -/
def apply_attrs (strict : Bool) (tag : String) (e : Elem) :
    List (String × String) → Except DatReaderError Elem
  | [] => .ok e
  | (key, value) :: attrs =>
    match e.attr_set key value with
    | some (true, e') => apply_attrs strict tag e' attrs
    | some (false, e') =>
      if strict then
        .error (.UnexpectedAttribute
          s!"Unexpected attribute \"{key}\"=\"{value}\" in element \"{tag}\"")
      else
        apply_attrs strict tag e' attrs
    | none =>
      if strict then
        .error (.UnexpectedAttribute
          s!"Unexpected attribute \"{key}\"=\"{value}\" in element \"{tag}\"")
      else
        apply_attrs strict tag e attrs

/-- Mirrors `DatReader::skip_content`, started at nesting level `level`
(the driver always starts it at 1): consume events, counting start tags up
and end tags down, until the level closes; at end of input it stops
silently (the Rust `Eof` arm breaks with `Ok`).  Returns the remaining
events. -/
def skip_content (level : Nat) : List Event → List Event
  | [] => []
  | .startTag _ _ :: rest => skip_content (level + 1) rest
  | .endTag _ :: rest =>
    if level = 1 then rest else skip_content (level - 1) rest
  | .text _ :: rest => skip_content level rest

/-- Mirrors `DatReader::read_content`, reading the content of the element
bound by the cursor `(tag, e)` until its end tag.  The `fuel` argument only
makes the recursion structural: the wrapper `read_content` supplies
`events.length + 1`, which is proven adequate (`read_content0_mono`), so
the fuel-exhaustion branch is unreachable.  Returns the element after its
content is read (the write-back of the cursor's borrow) and the remaining
events. -/
def read_content0 (strict : Bool) :
    Nat → String → Elem → List Event → Except DatReaderError (Elem × List Event)
  | 0, _, _, _ => .error (.Xml "unreachable: fuel exhausted")
  | _ + 1, tag, _, [] =>
    .error (.Xml s!"Unexpected EOF while reading element \"{tag}\"")
  | f + 1, tag, e, .startTag t attrs :: rest =>
    match e.child t with
    | some (ctag, ce) =>
      match apply_attrs strict ctag ce attrs with
      | .error err => .error err
      | .ok ce1 =>
        match read_content0 strict f ctag ce1 rest with
        | .error err => .error err
        | .ok (ce2, rest2) => read_content0 strict f tag (e.install t ce2) rest2
    | none =>
      if strict then
        .error (.UnexpectedElement
          s!"Unexpected child element \"{t}\" in element \"{tag}\"")
      else
        read_content0 strict f tag e (skip_content 1 rest)
  | f + 1, tag, e, .text s :: rest =>
    read_content0 strict f tag (e.push_content s) rest
  | _ + 1, _, e, .endTag _ :: rest => .ok (e, rest)

/-- `DatReader::read_content` with adequate fuel. -/
def read_content (strict : Bool) (tag : String) (e : Elem)
    (evs : List Event) : Except DatReaderError (Elem × List Event) :=
  read_content0 strict (evs.length + 1) tag e evs

/-- Mirrors the loop of `DatReader::read_all`: `result` starts empty and is
get-or-inserted on every top-level `datafile` start tag (so a second
`datafile` sibling binds the same container); any other top-level start tag
errors in strict mode and is skipped in lenient mode; every other event is
ignored; end of input yields the result, or the no-root error if no
`datafile` was ever seen.  `fuel` only makes the recursion structural, as
in `read_content0`. -/
def read_all0 (strict : Bool) :
    Nat → Option DataFile → List Event → Except DatReaderError DataFile
  | 0, _, _ => .error (.Xml "unreachable: fuel exhausted")
  | _ + 1, result, [] =>
    match result with
    | some df => .ok df
    | none => .error (.Xml "Unexpected EOF before a datafile element was seen")
  | f + 1, result, .startTag tag attrs :: rest =>
    if tag = "datafile" then
      let df := result.getD default
      match apply_attrs strict "datafile" (.dataFile df) attrs with
      | .error err => .error err
      | .ok e1 =>
        match read_content strict "datafile" e1 rest with
        | .error err => .error err
        | .ok (e2, rest2) => read_all0 strict f (some (e2.get_data_file df)) rest2
    else if strict then
      .error (.UnexpectedElement s!"Unexpected top-level element \"{tag}\"")
    else
      read_all0 strict f result (skip_content 1 rest)
  | f + 1, result, _ :: rest => read_all0 strict f result rest

/-- The `read_all` loop started at an arbitrary accumulated result, with
adequate fuel. -/
def read_all_from (strict : Bool) (result : Option DataFile)
    (evs : List Event) : Except DatReaderError DataFile :=
  read_all0 strict (evs.length + 1) result evs

/-- Mirrors `DatReader::read_all` on a fully tokenized input. -/
def read_all (strict : Bool) (evs : List Event) :
    Except DatReaderError DataFile :=
  read_all_from strict none evs

/-!
## Well-formed documents

`Node` is a well-formed XML element tree (after tokenization: attributes
decoded, text trimmed, every start tag matched by an end tag); `Nodes` is a
sequence of sibling nodes.  `events` serializes a tree back to the event
stream the token source would deliver for it.
-/

mutual

/-- A well-formed element or text node. -/
inductive Node where
  | element (tag : String) (attrs : List (String × String)) (children : Nodes)
  | text (content : String)

/-- A sequence of sibling nodes. -/
inductive Nodes where
  | nil : Nodes
  | cons : Node → Nodes → Nodes

end

mutual

/-- The event stream of one well-formed node. -/
def Node.events : Node → List Event
  | .element tag attrs children =>
    Event.startTag tag attrs :: children.events ++ [Event.endTag tag]
  | .text s => [Event.text s]

/-- The event stream of a sibling sequence. -/
def Nodes.events : Nodes → List Event
  | .nil => []
  | .cons n ns => n.events ++ ns.events

end

mutual

/-- Structural size of a node, for strong induction. -/
def Node.size : Node → Nat
  | .element _ _ children => children.size + 1
  | .text _ => 1

/-- Structural size of a sibling sequence. -/
def Nodes.size : Nodes → Nat
  | .nil => 1
  | .cons n ns => n.size + ns.size

end

/-- The sibling sequence as a plain list. -/
def Nodes.toList : Nodes → List Node
  | .nil => []
  | .cons n ns => n :: ns.toList

/-- Whether a node is a `game` element. -/
def Node.isGame : Node → Bool
  | .element "game" _ _ => true
  | _ => false

/-- The result of the driver on one `game` element, started from a fresh
`Game::default()` exactly as `DataFile::child` starts it: the attributes
are applied to the fresh game and its subtree is read.  `none` for a
non-`game` node or a failing parse. -/
def parse_game (strict : Bool) : Node → Option Game
  | .element "game" attrs children =>
    match apply_attrs strict "game" (.game default) attrs with
    | .error _ => none
    | .ok ge =>
      match read_content strict "game" ge (children.events ++ [.endTag "game"]) with
      | .ok (.game g, _) => some g
      | _ => none
  | _ => none

/-- The driver's result on the content of one element considered in
isolation: the element value after its children and text are read, or the
error that aborted the parse. -/
def run_content (strict : Bool) (tag : String) (e : Elem) (cs : Nodes) :
    Except DatReaderError Elem :=
  match read_content strict tag e (cs.events ++ [.endTag tag]) with
  | .ok (e', _) => .ok e'
  | .error err => .error err

/-- The attribute keys the spec's schema contract lists for a `game`
element. -/
def game_schema_attrs : List String :=
  ["id", "name", "sourcefile", "isbios", "cloneof", "cloneofid", "romof",
   "sampleof", "board", "rebuildto"]

/-- The attribute keys the spec's schema contract lists for a `rom`
element. -/
def rom_schema_attrs : List String :=
  ["name", "size", "crc", "sha1", "sha256", "md5", "merge", "status", "date",
   "serial"]

/-!
## Basic properties of the driver

The driver only ever consumes input: whatever events a call returns are a
suffix of what it was given.  This, together with fuel monotonicity, shows
the default fuel `events.length + 1` adequate and yields fuel-free
unfolding equations for `read_content` and `read_all_from`.
-/

theorem skip_content_length_le (evs : List Event) :
    ∀ level, (skip_content level evs).length ≤ evs.length := by
  induction evs with
  | nil => intro level; simp [skip_content]
  | cons ev rest ih =>
    intro level
    cases ev with
    | startTag t a => simpa [skip_content] using Nat.le_succ_of_le (ih (level + 1))
    | text s => simpa [skip_content] using Nat.le_succ_of_le (ih level)
    | endTag t =>
      simp only [skip_content]
      split
      · simp
      · simpa using Nat.le_succ_of_le (ih (level - 1))

theorem read_content0_length_le :
    ∀ (f : Nat) (strict : Bool) (tag : String) (e : Elem) (evs : List Event)
      (e' : Elem) (rest' : List Event),
      read_content0 strict f tag e evs = .ok (e', rest') →
      rest'.length ≤ evs.length := by
  intro f
  induction f with
  | zero => intro _ _ _ evs _ _ h; simp [read_content0] at h
  | succ f ih =>
    intro strict tag e evs e' rest' h
    match evs with
    | [] => simp [read_content0] at h
    | .startTag t attrs :: rest =>
      simp only [read_content0] at h
      split at h
      · split at h
        · exact absurd h (by simp)
        · split at h
          · exact absurd h (by simp)
          · rename_i ce2rest2 ce2 rest2 hr
            have h1 := ih _ _ _ _ _ _ h
            have h2 := ih _ _ _ _ _ _ hr
            simp only [List.length_cons]
            omega
      · split at h
        · exact absurd h (by simp)
        · have h1 := ih _ _ _ _ _ _ h
          have h2 := skip_content_length_le rest 1
          simp only [List.length_cons]
          omega
    | .text s :: rest =>
      simp only [read_content0] at h
      have h1 := ih _ _ _ _ _ _ h
      simp only [List.length_cons]
      omega
    | .endTag t :: rest =>
      simp only [read_content0] at h
      cases h with
      | refl => simp

theorem read_content0_mono :
    ∀ (f f' : Nat) (strict : Bool) (tag : String) (e : Elem)
      (evs : List Event), evs.length < f → evs.length < f' →
      read_content0 strict f tag e evs = read_content0 strict f' tag e evs := by
  intro f
  induction f with
  | zero => intro f' _ _ _ evs h _; omega
  | succ f ih =>
    intro f' strict tag e evs h h'
    match f', evs with
    | 0, _ => omega
    | f' + 1, [] => rfl
    | f' + 1, .startTag t attrs :: rest =>
      simp only [List.length_cons] at h h'
      cases hc : e.child t with
      | some c =>
        obtain ⟨ctag, ce⟩ := c
        simp only [read_content0, hc]
        cases ha : apply_attrs strict ctag ce attrs with
        | error err => rfl
        | ok ce1 =>
          simp only
          rw [ih f' strict ctag ce1 rest (by omega) (by omega)]
          cases hr : read_content0 strict f' ctag ce1 rest with
          | error err => rfl
          | ok r =>
            obtain ⟨ce2, rest2⟩ := r
            simp only
            have hlen := read_content0_length_le f' strict ctag ce1 rest ce2 rest2 hr
            exact ih f' strict tag (e.install t ce2) rest2 (by omega) (by omega)
      | none =>
        simp only [read_content0, hc]
        cases strict with
        | true => rfl
        | false =>
          simp only [if_neg Bool.false_ne_true]
          have hlen := skip_content_length_le rest 1
          exact ih f' false tag e (skip_content 1 rest) (by omega) (by omega)
    | f' + 1, .text s :: rest =>
      simp only [read_content0, List.length_cons] at h h' ⊢
      exact ih f' strict tag (e.push_content s) rest (by omega) (by omega)
    | f' + 1, .endTag t :: rest => rfl

theorem read_content_length_le {strict : Bool} {tag : String} {e : Elem}
    {evs : List Event} {e' : Elem} {rest' : List Event}
    (h : read_content strict tag e evs = .ok (e', rest')) :
    rest'.length ≤ evs.length :=
  read_content0_length_le (evs.length + 1) strict tag e evs e' rest' h

/-- Unfolding: end of input inside an open element is the fatal EOF error
naming the cursor's tag. -/
theorem read_content_nil (strict : Bool) (tag : String) (e : Elem) :
    read_content strict tag e [] =
      .error (.Xml s!"Unexpected EOF while reading element \"{tag}\"") := rfl

/-- Unfolding: a text/CDATA event is pushed onto the bound element's content
buffer (a no-op for elements without one) and reading continues. -/
theorem read_content_text (strict : Bool) (tag : String) (e : Elem)
    (s : String) (rest : List Event) :
    read_content strict tag e (.text s :: rest) =
      read_content strict tag (e.push_content s) rest := by
  show read_content0 strict (rest.length + 1 + 1) tag e (.text s :: rest) = _
  simp only [read_content0]
  rfl

/-- Unfolding: an end tag closes the cursor's element, returning it together
with the remaining events. -/
theorem read_content_end (strict : Bool) (tag : String) (e : Elem)
    (t : String) (rest : List Event) :
    read_content strict tag e (.endTag t :: rest) = .ok (e, rest) := by
  show read_content0 strict (rest.length + 1 + 1) tag e (.endTag t :: rest) = _
  simp only [read_content0]

/-- Unfolding: an unresolved child tag in strict mode aborts with the
`UnexpectedElement` error naming the child tag and the enclosing tag. -/
theorem read_content_start_none_strict (tag : String) (e : Elem)
    (t : String) (attrs : List (String × String)) (rest : List Event)
    (hc : e.child t = none) :
    read_content true tag e (.startTag t attrs :: rest) =
      .error (.UnexpectedElement
        s!"Unexpected child element \"{t}\" in element \"{tag}\"") := by
  show read_content0 true (rest.length + 1 + 1) tag e _ = _
  simp only [read_content0, hc]
  rfl

/-- Unfolding: an unresolved child tag in lenient mode skips the whole
subtree by start/end counting and continues with the same element. -/
theorem read_content_start_none_lenient (tag : String) (e : Elem)
    (t : String) (attrs : List (String × String)) (rest : List Event)
    (hc : e.child t = none) :
    read_content false tag e (.startTag t attrs :: rest) =
      read_content false tag e (skip_content 1 rest) := by
  show read_content0 false (rest.length + 1 + 1) tag e _ = _
  simp only [read_content0, hc, if_neg Bool.false_ne_true]
  exact read_content0_mono _ _ false tag e (skip_content 1 rest)
    (by have := skip_content_length_le rest 1; omega) (by omega)

/-- Unfolding: when a child resolves but its attribute list aborts, the
whole parse aborts with that error. -/
theorem read_content_start_attr_error (strict : Bool) (tag : String)
    (e : Elem) (t ctag : String) (ce : Elem)
    (attrs : List (String × String)) (rest : List Event)
    (err : DatReaderError) (hc : e.child t = some (ctag, ce))
    (ha : apply_attrs strict ctag ce attrs = .error err) :
    read_content strict tag e (.startTag t attrs :: rest) = .error err := by
  show read_content0 strict (rest.length + 1 + 1) tag e _ = _
  simp only [read_content0, hc, ha]

/-- Unfolding: when a child resolves and its subtree aborts, the whole parse
aborts with that error. -/
theorem read_content_start_read_error (strict : Bool) (tag : String)
    (e : Elem) (t ctag : String) (ce ce1 : Elem)
    (attrs : List (String × String)) (rest : List Event)
    (err : DatReaderError) (hc : e.child t = some (ctag, ce))
    (ha : apply_attrs strict ctag ce attrs = .ok ce1)
    (hr : read_content strict ctag ce1 rest = .error err) :
    read_content strict tag e (.startTag t attrs :: rest) = .error err := by
  show read_content0 strict (rest.length + 1 + 1) tag e _ = _
  simp only [read_content0, hc, ha]
  rw [show read_content0 strict (rest.length + 1) ctag ce1 rest = _ from hr]

/-- Unfolding: when a child resolves, its attributes are applied to the
bound child, its whole subtree is read depth-first, the finished child is
written back into the parent under its tag, and reading continues at the
parent level. -/
theorem read_content_start_ok (strict : Bool) (tag : String)
    (e : Elem) (t ctag : String) (ce ce1 ce2 : Elem)
    (attrs : List (String × String)) (rest rest2 : List Event)
    (hc : e.child t = some (ctag, ce))
    (ha : apply_attrs strict ctag ce attrs = .ok ce1)
    (hr : read_content strict ctag ce1 rest = .ok (ce2, rest2)) :
    read_content strict tag e (.startTag t attrs :: rest) =
      read_content strict tag (e.install t ce2) rest2 := by
  show read_content0 strict (rest.length + 1 + 1) tag e _ = _
  simp only [read_content0, hc, ha]
  rw [show read_content0 strict (rest.length + 1) ctag ce1 rest = _ from hr]
  exact read_content0_mono _ _ strict tag (e.install t ce2) rest2
    (by have := read_content_length_le hr; omega) (by omega)

theorem read_all0_mono :
    ∀ (f f' : Nat) (strict : Bool) (result : Option DataFile)
      (evs : List Event), evs.length < f → evs.length < f' →
      read_all0 strict f result evs = read_all0 strict f' result evs := by
  intro f
  induction f with
  | zero => intro f' _ _ evs h _; omega
  | succ f ih =>
    intro f' strict result evs h h'
    match f', evs with
    | 0, _ => omega
    | f' + 1, [] => rfl
    | f' + 1, .startTag tag attrs :: rest =>
      simp only [List.length_cons] at h h'
      by_cases htag : tag = "datafile"
      · subst htag
        simp only [read_all0, if_pos rfl]
        cases ha : apply_attrs strict "datafile"
            (.dataFile (result.getD default)) attrs with
        | error err => rfl
        | ok e1 =>
          simp only
          cases hr : read_content strict "datafile" e1 rest with
          | error err => rfl
          | ok r =>
            obtain ⟨e2, rest2⟩ := r
            simp only
            have hlen := read_content_length_le hr
            exact ih f' strict _ rest2 (by omega) (by omega)
      · simp only [read_all0, if_neg htag]
        cases strict with
        | true => rfl
        | false =>
          simp only [if_neg Bool.false_ne_true]
          have hlen := skip_content_length_le rest 1
          exact ih f' false result (skip_content 1 rest) (by omega) (by omega)
    | f' + 1, .text s :: rest =>
      simp only [read_all0, List.length_cons] at h h' ⊢
      exact ih f' strict result rest (by omega) (by omega)
    | f' + 1, .endTag t :: rest =>
      simp only [read_all0, List.length_cons] at h h' ⊢
      exact ih f' strict result rest (by omega) (by omega)

/-- Unfolding: end of input at the top level yields the accumulated
document. -/
theorem read_all_from_nil_some (strict : Bool) (df : DataFile) :
    read_all_from strict (some df) [] = .ok df := rfl

/-- Unfolding: end of input with the root tag never seen is the no-root
error. -/
theorem read_all_from_nil_none (strict : Bool) :
    read_all_from strict none [] =
      .error (.Xml "Unexpected EOF before a datafile element was seen") := rfl

/-- Unfolding: a top-level `datafile` start tag binds a cursor to the
get-or-inserted result container, applies its attributes, reads its whole
content, and loops with the updated container. -/
theorem read_all_from_datafile_ok (strict : Bool) (result : Option DataFile)
    (attrs : List (String × String)) (rest rest2 : List Event)
    (e1 e2 : Elem)
    (ha : apply_attrs strict "datafile" (.dataFile (result.getD default))
      attrs = .ok e1)
    (hr : read_content strict "datafile" e1 rest = .ok (e2, rest2)) :
    read_all_from strict result (.startTag "datafile" attrs :: rest) =
      read_all_from strict (some (e2.get_data_file (result.getD default)))
        rest2 := by
  show read_all0 strict (rest.length + 1 + 1) result _ = _
  simp only [read_all0, if_pos rfl, ha]
  rw [show read_content strict "datafile" e1 rest = _ from hr]
  exact read_all0_mono _ _ strict _ rest2
    (by have := read_content_length_le hr; omega) (by omega)

/-- Unfolding: an aborting attribute list on a top-level `datafile` aborts
the parse. -/
theorem read_all_from_datafile_attr_error (strict : Bool)
    (result : Option DataFile) (attrs : List (String × String))
    (rest : List Event) (err : DatReaderError)
    (ha : apply_attrs strict "datafile" (.dataFile (result.getD default))
      attrs = .error err) :
    read_all_from strict result (.startTag "datafile" attrs :: rest) =
      .error err := by
  show read_all0 strict (rest.length + 1 + 1) result _ = _
  simp only [read_all0, if_pos rfl, ha]
  rw [if_pos trivial]

/-- Unfolding: an aborting `datafile` content read aborts the parse. -/
theorem read_all_from_datafile_read_error (strict : Bool)
    (result : Option DataFile) (attrs : List (String × String))
    (rest : List Event) (e1 : Elem) (err : DatReaderError)
    (ha : apply_attrs strict "datafile" (.dataFile (result.getD default))
      attrs = .ok e1)
    (hr : read_content strict "datafile" e1 rest = .error err) :
    read_all_from strict result (.startTag "datafile" attrs :: rest) =
      .error err := by
  show read_all0 strict (rest.length + 1 + 1) result _ = _
  simp only [read_all0, if_pos rfl, ha]
  rw [show read_content strict "datafile" e1 rest = _ from hr, if_pos trivial]

/-- Unfolding: a non-`datafile` top-level start tag is fatal in strict
mode. -/
theorem read_all_from_other_strict (result : Option DataFile) (t : String)
    (attrs : List (String × String)) (rest : List Event)
    (ht : t ≠ "datafile") :
    read_all_from true result (.startTag t attrs :: rest) =
      .error (.UnexpectedElement s!"Unexpected top-level element \"{t}\"") := by
  show read_all0 true (rest.length + 1 + 1) result _ = _
  simp only [read_all0, if_neg ht, if_pos rfl]
  rw [if_pos trivial]

/-- Unfolding: a non-`datafile` top-level start tag is skipped whole in
lenient mode. -/
theorem read_all_from_other_lenient (result : Option DataFile) (t : String)
    (attrs : List (String × String)) (rest : List Event)
    (ht : t ≠ "datafile") :
    read_all_from false result (.startTag t attrs :: rest) =
      read_all_from false result (skip_content 1 rest) := by
  show read_all0 false (rest.length + 1 + 1) result _ = _
  simp only [read_all0, if_neg ht, if_neg Bool.false_ne_true]
  exact read_all0_mono _ _ false result (skip_content 1 rest)
    (by have := skip_content_length_le rest 1; omega) (by omega)

/-- Unfolding: top-level text is ignored by the `read_all` loop. -/
theorem read_all_from_text (strict : Bool) (result : Option DataFile)
    (s : String) (rest : List Event) :
    read_all_from strict result (.text s :: rest) =
      read_all_from strict result rest := by
  show read_all0 strict (rest.length + 1 + 1) result _ = _
  simp only [read_all0]
  rfl

/-- Unfolding: a top-level end tag is ignored by the `read_all` loop. -/
theorem read_all_from_end (strict : Bool) (result : Option DataFile)
    (t : String) (rest : List Event) :
    read_all_from strict result (.endTag t :: rest) =
      read_all_from strict result rest := by
  show read_all0 strict (rest.length + 1 + 1) result _ = _
  simp only [read_all0]
  rfl

/-!
## The driver on well-formed content

`skip_content` started inside a level consumes exactly one balanced subtree
per serialized node, and `read_content` on the serialized content of an
element consumes exactly that content plus the closing tag, its result
depending only on the content (`run_content`), not on what follows.
-/

theorem node_size_pos (n : Node) : 0 < n.size := by
  cases n <;> simp [Node.size]

theorem nodes_size_pos (ns : Nodes) : 0 < ns.size := by
  cases ns with
  | nil => simp [Nodes.size]
  | cons n ns => have := node_size_pos n; simp [Nodes.size]; omega

theorem skip_content_events :
    ∀ (k : Nat) (cs : Nodes), cs.size ≤ k →
      ∀ (level : Nat), 1 ≤ level → ∀ (rest : List Event),
        skip_content level (cs.events ++ rest) = skip_content level rest := by
  intro k
  induction k with
  | zero => intro cs h; have := nodes_size_pos cs; omega
  | succ k ih =>
    intro cs hsize level hlevel rest
    cases cs with
    | nil => simp [Nodes.events]
    | cons n ns =>
      have hns : ns.size ≤ k := by
        have := node_size_pos n
        simp [Nodes.size] at hsize
        omega
      cases n with
      | text s =>
        have hlist : Nodes.events (.cons (.text s) ns) ++ rest =
            Event.text s :: (ns.events ++ rest) := by
          simp [Nodes.events, Node.events]
        rw [hlist]
        simp only [skip_content]
        exact ih ns hns level hlevel rest
      | element t a cs' =>
        have hcs' : cs'.size ≤ k := by
          have := nodes_size_pos ns
          simp [Nodes.size, Node.size] at hsize
          omega
        have hlist : Nodes.events (.cons (.element t a cs') ns) ++ rest =
            Event.startTag t a ::
              (cs'.events ++ Event.endTag t :: (ns.events ++ rest)) := by
          simp [Nodes.events, Node.events]
        rw [hlist]
        simp only [skip_content]
        rw [ih cs' hcs' (level + 1) (by omega) _]
        simp only [skip_content]
        rw [if_neg (by omega)]
        have : level + 1 - 1 = level := by omega
        rw [this]
        exact ih ns hns level hlevel rest

theorem run_content_nil (strict : Bool) (tag : String) (e : Elem) :
    run_content strict tag e .nil = .ok e := by
  simp [run_content, Nodes.events, read_content_end]

theorem read_content_events :
    ∀ (k : Nat) (cs : Nodes), cs.size ≤ k →
      ∀ (strict : Bool) (tag : String) (e : Elem) (ct : String)
        (rest : List Event),
        read_content strict tag e (cs.events ++ .endTag ct :: rest) =
          match run_content strict tag e cs with
          | .ok e' => .ok (e', rest)
          | .error err => .error err := by
  intro k
  induction k with
  | zero => intro cs h; have := nodes_size_pos cs; omega
  | succ k ih =>
    intro cs hsize strict tag e ct rest
    cases cs with
    | nil =>
      simp only [Nodes.events, List.nil_append]
      rw [read_content_end, run_content_nil]
    | cons n ns =>
      have hns : ns.size ≤ k := by
        have := node_size_pos n
        simp [Nodes.size] at hsize
        omega
      cases n with
      | text s =>
        have hlist : ∀ (tl : List Event),
            Nodes.events (.cons (.text s) ns) ++ tl =
              Event.text s :: (ns.events ++ tl) := by
          intro tl; simp [Nodes.events, Node.events]
        rw [hlist, read_content_text, ih ns hns strict tag (e.push_content s) ct rest]
        have hrun : run_content strict tag e (.cons (.text s) ns) =
            run_content strict tag (e.push_content s) ns := by
          unfold run_content
          rw [show Nodes.events (.cons (.text s) ns) ++ [Event.endTag tag] =
                Event.text s :: (ns.events ++ Event.endTag tag :: []) from
              by simp [Nodes.events, Node.events]]
          rw [read_content_text,
            ih ns hns strict tag (e.push_content s) tag []]
        rw [hrun]
      | element t a cs' =>
        have hcs' : cs'.size ≤ k := by
          have := nodes_size_pos ns
          simp [Nodes.size, Node.size] at hsize
          omega
        have hlist : ∀ (tl : List Event),
            Nodes.events (.cons (.element t a cs') ns) ++ tl =
              Event.startTag t a ::
                (cs'.events ++ Event.endTag t :: (ns.events ++ tl)) := by
          intro tl; simp [Nodes.events, Node.events]
        have hlistE : Nodes.events (.cons (.element t a cs') ns) ++
            [Event.endTag tag] =
            Event.startTag t a ::
              (cs'.events ++ Event.endTag t ::
                (ns.events ++ Event.endTag tag :: [])) := by
          simpa using hlist [Event.endTag tag]
        rw [hlist]
        cases hc : e.child t with
        | none =>
          cases strict with
          | true =>
            have hrun : run_content true tag e (.cons (.element t a cs') ns) =
                .error (.UnexpectedElement
                  s!"Unexpected child element \"{t}\" in element \"{tag}\"") := by
              unfold run_content
              rw [hlistE, read_content_start_none_strict _ _ _ _ _ hc]
            rw [read_content_start_none_strict _ _ _ _ _ hc, hrun]
          | false =>
            have hskip : ∀ (tl : List Event),
                skip_content 1 (cs'.events ++ Event.endTag t :: tl) = tl := by
              intro tl
              rw [skip_content_events k cs' hcs' 1 (by omega)]
              simp [skip_content]
            have hrun : run_content false tag e (.cons (.element t a cs') ns) =
                run_content false tag e ns := by
              unfold run_content
              rw [hlistE, read_content_start_none_lenient _ _ _ _ _ hc, hskip,
                ih ns hns false tag e tag []]
            rw [read_content_start_none_lenient _ _ _ _ _ hc, hskip,
              ih ns hns false tag e ct rest, hrun]
        | some c =>
          obtain ⟨ctag, ce⟩ := c
          cases ha : apply_attrs strict ctag ce a with
          | error err =>
            have hrun : run_content strict tag e (.cons (.element t a cs') ns) =
                .error err := by
              unfold run_content
              rw [hlistE, read_content_start_attr_error _ _ _ _ _ _ _ _ _ hc ha]
            rw [read_content_start_attr_error _ _ _ _ _ _ _ _ _ hc ha, hrun]
          | ok ce1 =>
            have hinner := ih cs' hcs' strict ctag ce1 t
              (ns.events ++ Event.endTag ct :: rest)
            have hinner2 := ih cs' hcs' strict ctag ce1 t
              (ns.events ++ Event.endTag tag :: [])
            cases hx : run_content strict ctag ce1 cs' with
            | error err =>
              rw [hx] at hinner hinner2
              have hrun : run_content strict tag e
                  (.cons (.element t a cs') ns) = .error err := by
                unfold run_content
                rw [hlistE,
                  read_content_start_read_error _ _ _ _ _ _ _ _ _ _ hc ha hinner2]
              rw [read_content_start_read_error _ _ _ _ _ _ _ _ _ _ hc ha hinner,
                hrun]
            | ok ce2 =>
              rw [hx] at hinner hinner2
              have hrun : run_content strict tag e
                  (.cons (.element t a cs') ns) =
                  run_content strict tag (e.install t ce2) ns := by
                unfold run_content
                rw [hlistE,
                  read_content_start_ok _ _ _ _ _ _ _ _ _ _ _ hc ha hinner2,
                  ih ns hns strict tag (e.install t ce2) tag []]
              rw [read_content_start_ok _ _ _ _ _ _ _ _ _ _ _ hc ha hinner,
                ih ns hns strict tag (e.install t ce2) ct rest, hrun]

/-!
## Step equations for `run_content`

With `read_content_events`, the driver's effect on an element's serialized
content reduces to a left-to-right walk over the sibling nodes.
-/

theorem run_content_text_step (strict : Bool) (tag : String) (e : Elem)
    (s : String) (ns : Nodes) :
    run_content strict tag e (.cons (.text s) ns) =
      run_content strict tag (e.push_content s) ns := by
  unfold run_content
  rw [show Nodes.events (.cons (.text s) ns) ++ [Event.endTag tag] =
        Event.text s :: (ns.events ++ Event.endTag tag :: []) from
      by simp [Nodes.events, Node.events]]
  rw [read_content_text,
    read_content_events ns.size ns le_rfl strict tag (e.push_content s) tag []]

theorem run_content_elem_none_strict (tag : String) (e : Elem)
    (t : String) (a : List (String × String)) (cs ns : Nodes)
    (hc : e.child t = none) :
    run_content true tag e (.cons (.element t a cs) ns) =
      .error (.UnexpectedElement
        s!"Unexpected child element \"{t}\" in element \"{tag}\"") := by
  unfold run_content
  rw [show Nodes.events (.cons (.element t a cs) ns) ++ [Event.endTag tag] =
        Event.startTag t a ::
          (cs.events ++ Event.endTag t :: (ns.events ++ Event.endTag tag :: []))
      from by simp [Nodes.events, Node.events]]
  rw [read_content_start_none_strict _ _ _ _ _ hc]

theorem run_content_elem_none_lenient (tag : String) (e : Elem)
    (t : String) (a : List (String × String)) (cs ns : Nodes)
    (hc : e.child t = none) :
    run_content false tag e (.cons (.element t a cs) ns) =
      run_content false tag e ns := by
  unfold run_content
  rw [show Nodes.events (.cons (.element t a cs) ns) ++ [Event.endTag tag] =
        Event.startTag t a ::
          (cs.events ++ Event.endTag t :: (ns.events ++ Event.endTag tag :: []))
      from by simp [Nodes.events, Node.events]]
  rw [read_content_start_none_lenient _ _ _ _ _ hc]
  rw [show skip_content 1
        (cs.events ++ Event.endTag t :: (ns.events ++ Event.endTag tag :: [])) =
      ns.events ++ Event.endTag tag :: [] from by
    rw [skip_content_events cs.size cs le_rfl 1 (by omega)]
    simp [skip_content]]

theorem run_content_elem_attr_error (strict : Bool) (tag : String) (e : Elem)
    (t ctag : String) (ce : Elem) (a : List (String × String)) (cs ns : Nodes)
    (err : DatReaderError) (hc : e.child t = some (ctag, ce))
    (ha : apply_attrs strict ctag ce a = .error err) :
    run_content strict tag e (.cons (.element t a cs) ns) = .error err := by
  unfold run_content
  rw [show Nodes.events (.cons (.element t a cs) ns) ++ [Event.endTag tag] =
        Event.startTag t a ::
          (cs.events ++ Event.endTag t :: (ns.events ++ Event.endTag tag :: []))
      from by simp [Nodes.events, Node.events]]
  rw [read_content_start_attr_error _ _ _ _ _ _ _ _ _ hc ha]

theorem run_content_elem_read_error (strict : Bool) (tag : String) (e : Elem)
    (t ctag : String) (ce ce1 : Elem) (a : List (String × String))
    (cs ns : Nodes) (err : DatReaderError)
    (hc : e.child t = some (ctag, ce))
    (ha : apply_attrs strict ctag ce a = .ok ce1)
    (hx : run_content strict ctag ce1 cs = .error err) :
    run_content strict tag e (.cons (.element t a cs) ns) = .error err := by
  unfold run_content
  rw [show Nodes.events (.cons (.element t a cs) ns) ++ [Event.endTag tag] =
        Event.startTag t a ::
          (cs.events ++ Event.endTag t :: (ns.events ++ Event.endTag tag :: []))
      from by simp [Nodes.events, Node.events]]
  have hinner := read_content_events cs.size cs le_rfl strict ctag ce1 t
    (ns.events ++ Event.endTag tag :: [])
  rw [hx] at hinner
  rw [read_content_start_read_error _ _ _ _ _ _ _ _ _ _ hc ha hinner]

theorem run_content_elem_ok (strict : Bool) (tag : String) (e : Elem)
    (t ctag : String) (ce ce1 ce2 : Elem) (a : List (String × String))
    (cs ns : Nodes) (hc : e.child t = some (ctag, ce))
    (ha : apply_attrs strict ctag ce a = .ok ce1)
    (hx : run_content strict ctag ce1 cs = .ok ce2) :
    run_content strict tag e (.cons (.element t a cs) ns) =
      run_content strict tag (e.install t ce2) ns := by
  unfold run_content
  rw [show Nodes.events (.cons (.element t a cs) ns) ++ [Event.endTag tag] =
        Event.startTag t a ::
          (cs.events ++ Event.endTag t :: (ns.events ++ Event.endTag tag :: []))
      from by simp [Nodes.events, Node.events]]
  have hinner := read_content_events cs.size cs le_rfl strict ctag ce1 t
    (ns.events ++ Event.endTag tag :: [])
  rw [hx] at hinner
  rw [read_content_start_ok _ _ _ _ _ _ _ _ _ _ _ hc ha hinner]

/-!
## Shape preservation

The driver mutates an element through its own capability functions only, so
an element bound to a cursor keeps its variant: a `dataFile` stays a
`dataFile`, a `game` a `game`, and so on.  The abstract invariant lemmas
below are instantiated at the variants the claims need.
-/

theorem apply_attrs_shape (P : Elem → Prop)
    (hset : ∀ e key value b e', P e → e.attr_set key value = some (b, e') →
      P e') :
    ∀ (strict : Bool) (tag : String) (attrs : List (String × String))
      (e e' : Elem), P e → apply_attrs strict tag e attrs = .ok e' → P e' := by
  intro strict tag attrs
  induction attrs with
  | nil =>
    intro e e' hP h
    simp only [apply_attrs, Except.ok.injEq] at h
    exact h ▸ hP
  | cons kv attrs ih =>
    intro e e' hP h
    obtain ⟨key, value⟩ := kv
    simp only [apply_attrs] at h
    split at h
    · rename_i e1 heq
      exact ih e1 e' (hset e key value true e1 hP heq) h
    · rename_i e1 heq
      split at h
      · exact absurd h (by simp)
      · exact ih e1 e' (hset e key value false e1 hP heq) h
    · split at h
      · exact absurd h (by simp)
      · exact ih e e' hP h

theorem read_content0_shape (P : Elem → Prop)
    (hpush : ∀ e s, P e → P (e.push_content s))
    (hinstall : ∀ e t ce, P e → P (e.install t ce)) :
    ∀ (f : Nat) (strict : Bool) (tag : String) (e : Elem) (evs : List Event)
      (e' : Elem) (rest' : List Event), P e →
      read_content0 strict f tag e evs = .ok (e', rest') → P e' := by
  intro f
  induction f with
  | zero => intro _ _ _ evs _ _ _ h; simp [read_content0] at h
  | succ f ih =>
    intro strict tag e evs e' rest' hP h
    match evs with
    | [] => simp [read_content0] at h
    | .startTag t attrs :: rest =>
      simp only [read_content0] at h
      split at h
      · split at h
        · exact absurd h (by simp)
        · split at h
          · exact absurd h (by simp)
          · rename_i hr
            exact ih strict tag _ _ e' rest' (hinstall e t _ hP) h
      · split at h
        · exact absurd h (by simp)
        · exact ih strict tag e _ e' rest' hP h
    | .text s :: rest =>
      simp only [read_content0] at h
      exact ih strict tag _ rest e' rest' (hpush e s hP) h
    | .endTag t :: rest =>
      simp only [read_content0, Except.ok.injEq, Prod.mk.injEq] at h
      exact h.1 ▸ hP

theorem read_content_shape (P : Elem → Prop)
    (hpush : ∀ e s, P e → P (e.push_content s))
    (hinstall : ∀ e t ce, P e → P (e.install t ce))
    {strict : Bool} {tag : String} {e : Elem} {evs : List Event}
    {e' : Elem} {rest' : List Event} (hP : P e)
    (h : read_content strict tag e evs = .ok (e', rest')) : P e' :=
  read_content0_shape P hpush hinstall (evs.length + 1) strict tag e evs e'
    rest' hP h

theorem run_content_shape (P : Elem → Prop)
    (hpush : ∀ e s, P e → P (e.push_content s))
    (hinstall : ∀ e t ce, P e → P (e.install t ce))
    {strict : Bool} {tag : String} {e : Elem} {cs : Nodes} {e' : Elem}
    (hP : P e) (h : run_content strict tag e cs = .ok e') : P e' := by
  unfold run_content at h
  split at h
  · rename_i e2 rest2 hr
    cases h with
    | refl => exact read_content_shape P hpush hinstall hP hr
  · exact absurd h (by simp)

theorem run_content_dataFile {strict : Bool} {tag : String} {d : DataFile}
    {cs : Nodes} {e' : Elem}
    (h : run_content strict tag (.dataFile d) cs = .ok e') :
    ∃ d', e' = .dataFile d' := by
  refine run_content_shape (fun e => ∃ x, e = .dataFile x) ?_ ?_ ⟨d, rfl⟩ h
  · rintro e s ⟨x, rfl⟩; exact ⟨x, rfl⟩
  · rintro e t ce ⟨x, rfl⟩; exact ⟨x.install t ce, rfl⟩

theorem run_content_game {strict : Bool} {tag : String} {g : Game}
    {cs : Nodes} {e' : Elem}
    (h : run_content strict tag (.game g) cs = .ok e') :
    ∃ g', e' = .game g' := by
  refine run_content_shape (fun e => ∃ x, e = .game x) ?_ ?_ ⟨g, rfl⟩ h
  · rintro e s ⟨x, rfl⟩; exact ⟨x, rfl⟩
  · rintro e t ce ⟨x, rfl⟩; exact ⟨x.install t ce, rfl⟩

theorem run_content_header {strict : Bool} {tag : String} {hd : Header}
    {cs : Nodes} {e' : Elem}
    (h : run_content strict tag (.header hd) cs = .ok e') :
    ∃ h', e' = .header h' := by
  refine run_content_shape (fun e => ∃ x, e = .header x) ?_ ?_ ⟨hd, rfl⟩ h
  · rintro e s ⟨x, rfl⟩; exact ⟨x, rfl⟩
  · rintro e t ce ⟨x, rfl⟩; exact ⟨x.install t ce, rfl⟩

theorem apply_attrs_game {strict : Bool} {tag : String} {g : Game}
    {attrs : List (String × String)} {e' : Elem}
    (h : apply_attrs strict tag (.game g) attrs = .ok e') :
    ∃ g', e' = .game g' := by
  refine apply_attrs_shape (fun e => ∃ x, e = .game x) ?_ strict tag attrs
    (.game g) e' ⟨g, rfl⟩ h
  rintro e key value b e2 ⟨x, rfl⟩ heq
  simp only [Elem.attr_set, Option.map_eq_some'] at heq
  obtain ⟨r, -, hr2⟩ := heq
  exact ⟨r.2, (Prod.mk.injEq _ _ _ _).mp hr2 |>.2.symm ▸ rfl⟩

theorem apply_attrs_header {strict : Bool} {tag : String} {hd : Header}
    {attrs : List (String × String)} {e' : Elem}
    (h : apply_attrs strict tag (.header hd) attrs = .ok e') :
    ∃ h', e' = .header h' := by
  refine apply_attrs_shape (fun e => ∃ x, e = .header x) ?_ strict tag attrs
    (.header hd) e' ⟨hd, rfl⟩ h
  rintro e key value b e2 ⟨x, rfl⟩ heq
  simp [Elem.attr_set] at heq

/-- Resolving and setting an attribute on a `DataFile` touches only `build`
and `debug`; the `games` sequence is untouched. -/
theorem DataFile.attr_set_games {d d' : DataFile} {key value : String}
    {b : Bool} (h : DataFile.attr_set d key value = some (b, d')) :
    d'.games = d.games := by
  unfold DataFile.attr_set at h
  split at h
  · simp only [Option.some.injEq, Prod.mk.injEq] at h
    rw [← h.2]
  · simp only [Option.some.injEq, Prod.mk.injEq] at h
    rw [← h.2]
  · simp at h

theorem apply_attrs_dataFile_games {strict : Bool} {tag : String}
    {d : DataFile} {attrs : List (String × String)} {e' : Elem}
    (h : apply_attrs strict tag (.dataFile d) attrs = .ok e') :
    ∃ d', e' = .dataFile d' ∧ d'.games = d.games := by
  refine apply_attrs_shape
    (fun e => ∃ x, e = .dataFile x ∧ x.games = d.games) ?_ strict tag attrs
    (.dataFile d) e' ⟨d, rfl, rfl⟩ h
  rintro e key value b e2 ⟨x, rfl, hx⟩ heq
  simp only [Elem.attr_set, Option.map_eq_some'] at heq
  obtain ⟨r, hr1, hr2⟩ := heq
  obtain ⟨-, hr4⟩ := (Prod.mk.injEq _ _ _ _).mp hr2
  refine ⟨r.2, hr4.symm ▸ rfl, ?_⟩
  have : r.2.games = x.games := by
    obtain ⟨rb, rd⟩ := r
    exact DataFile.attr_set_games hr1
  rw [this, hx]

/-!
## Games at the document level

Reading the content of a `datafile` element appends exactly one game per
direct `game` child, in document order, each obtained by parsing that
child's subtree from a fresh default game; no other child and no text
touches the `games` sequence.
-/

theorem run_content_datafile_games :
    ∀ (k : Nat) (ns : Nodes), ns.size ≤ k →
      ∀ (strict : Bool) (tag : String) (d : DataFile) (e' : Elem),
        run_content strict tag (.dataFile d) ns = .ok e' →
        ∃ d', e' = .dataFile d' ∧
          d'.games = d.games ++ ns.toList.filterMap (parse_game strict) ∧
          ∀ n ∈ ns.toList, n.isGame = true → (parse_game strict n).isSome := by
  intro k
  induction k with
  | zero => intro ns h; have := nodes_size_pos ns; omega
  | succ k ih =>
    intro ns hsize strict tag d e' h
    cases ns with
    | nil =>
      rw [run_content_nil] at h
      refine ⟨d, ?_, by simp [Nodes.toList], by simp [Nodes.toList]⟩
      exact (Except.ok.injEq _ _).mp h |>.symm
    | cons n ns =>
      have hns : ns.size ≤ k := by
        have := node_size_pos n
        simp [Nodes.size] at hsize
        omega
      cases n with
      | text s =>
        rw [run_content_text_step] at h
        have hpush : (Elem.dataFile d).push_content s = .dataFile d := rfl
        rw [hpush] at h
        obtain ⟨d', he, hg, hs⟩ := ih ns hns strict tag d e' h
        refine ⟨d', he, ?_, ?_⟩
        · simpa [Nodes.toList, parse_game] using hg
        · intro m hm hgame
          simp only [Nodes.toList, List.mem_cons] at hm
          rcases hm with rfl | hm
          · simp [Node.isGame] at hgame
          · exact hs m hm hgame
      | element t a cs =>
        by_cases ht2 : t = "game"
        · subst ht2
          have hc : (Elem.dataFile d).child "game" =
              some ("game", .game default) := rfl
          cases ha : apply_attrs strict "game" (.game default) a with
          | error err =>
            rw [run_content_elem_attr_error _ _ _ _ _ _ _ _ _ _ hc ha] at h
            exact absurd h (by simp)
          | ok ge1 =>
            obtain ⟨g1, rfl⟩ := apply_attrs_game ha
            cases hx : run_content strict "game" (.game g1) cs with
            | error err =>
              rw [run_content_elem_read_error _ _ _ _ _ _ _ _ _ _ _ hc ha hx]
                at h
              exact absurd h (by simp)
            | ok ge2 =>
              obtain ⟨g2, rfl⟩ := run_content_game hx
              rw [run_content_elem_ok _ _ _ _ _ _ _ _ _ _ _ hc ha hx] at h
              have hinstall : (Elem.dataFile d).install "game" (.game g2) =
                  .dataFile { d with games := d.games ++ [g2] } := rfl
              rw [hinstall] at h
              obtain ⟨d', he, hg, hs⟩ := ih ns hns strict tag _ e' h
              have hread : read_content strict "game" (.game g1)
                  (cs.events ++ [Event.endTag "game"]) = .ok (.game g2, []) := by
                rw [show cs.events ++ [Event.endTag "game"] =
                      cs.events ++ Event.endTag "game" :: [] from rfl,
                  read_content_events cs.size cs le_rfl strict "game"
                    (.game g1) "game" [], hx]
              have hpg : parse_game strict (.element "game" a cs) = some g2 := by
                simp only [parse_game, ha, hread]
              refine ⟨d', he, ?_, ?_⟩
              · rw [hg]
                simp [Nodes.toList, hpg]
              · intro m hm hgame
                simp only [Nodes.toList, List.mem_cons] at hm
                rcases hm with rfl | hm
                · simp [hpg]
                · exact hs m hm hgame
        · by_cases ht1 : t = "header"
          · subst ht1
            have hc : (Elem.dataFile d).child "header" =
                some ("header", .header (d.header.getD default)) := rfl
            cases ha : apply_attrs strict "header"
                (.header (d.header.getD default)) a with
            | error err =>
              rw [run_content_elem_attr_error _ _ _ _ _ _ _ _ _ _ hc ha] at h
              exact absurd h (by simp)
            | ok he1 =>
              obtain ⟨h1, rfl⟩ := apply_attrs_header ha
              cases hx : run_content strict "header" (.header h1) cs with
              | error err =>
                rw [run_content_elem_read_error _ _ _ _ _ _ _ _ _ _ _ hc ha hx]
                  at h
                exact absurd h (by simp)
              | ok he2 =>
                obtain ⟨h2, rfl⟩ := run_content_header hx
                rw [run_content_elem_ok _ _ _ _ _ _ _ _ _ _ _ hc ha hx] at h
                have hinstall :
                    (Elem.dataFile d).install "header" (.header h2) =
                    .dataFile { d with header := some h2 } := rfl
                rw [hinstall] at h
                obtain ⟨d', he, hg, hs⟩ := ih ns hns strict tag _ e' h
                have hpg : parse_game strict (.element "header" a cs) = none := by
                  simp [parse_game]
                refine ⟨d', he, ?_, ?_⟩
                · rw [hg]
                  simp [Nodes.toList, hpg]
                · intro m hm hgame
                  simp only [Nodes.toList, List.mem_cons] at hm
                  rcases hm with rfl | hm
                  · simp [Node.isGame] at hgame
                  · exact hs m hm hgame
          · have hc : (Elem.dataFile d).child t = none := by
              show DataFile.child d t = none
              unfold DataFile.child
              split <;> simp_all
            have hpg : parse_game strict (.element t a cs) = none := by
              unfold parse_game
              split <;> simp_all
            have hig : Node.isGame (.element t a cs) = false := by
              unfold Node.isGame
              split <;> simp_all
            cases strict with
            | true =>
              rw [run_content_elem_none_strict _ _ _ _ _ _ hc] at h
              exact absurd h (by simp)
            | false =>
              rw [run_content_elem_none_lenient _ _ _ _ _ _ hc] at h
              obtain ⟨d', he, hg, hs⟩ := ih ns hns false tag d e' h
              refine ⟨d', he, ?_, ?_⟩
              · rw [hg]
                simp [Nodes.toList, hpg]
              · intro m hm hgame
                simp only [Nodes.toList, List.mem_cons] at hm
                rcases hm with rfl | hm
                · simp [hig] at hgame
                · exact hs m hm hgame

/-!
## Failed coercion never mutates

Every `set_from_str` failure path is a bare `return false`, leaving the
field untouched; lifted through the attribute tables, a resolved-but-failed
attribute leaves the whole element unchanged.
-/

theorem set_from_str_false_bool {x y : Bool} {v : String}
    (h : Bool.set_from_str x v = (false, y)) : y = x := by
  unfold Bool.set_from_str at h
  split at h <;> simp_all

theorem set_from_str_false_force_merging {x y : ForceMerging} {v : String}
    (h : ForceMerging.set_from_str x v = (false, y)) : y = x := by
  unfold ForceMerging.set_from_str at h
  split at h <;> simp_all

theorem set_from_str_false_force_no_dump {x y : ForceNoDump} {v : String}
    (h : ForceNoDump.set_from_str x v = (false, y)) : y = x := by
  unfold ForceNoDump.set_from_str at h
  split at h <;> simp_all

theorem set_from_str_false_force_packing {x y : ForcePacking} {v : String}
    (h : ForcePacking.set_from_str x v = (false, y)) : y = x := by
  unfold ForcePacking.set_from_str at h
  split at h <;> simp_all

theorem set_from_str_false_rom_mode {x y : RomMode} {v : String}
    (h : RomMode.set_from_str x v = (false, y)) : y = x := by
  unfold RomMode.set_from_str at h
  split at h <;> simp_all

theorem set_from_str_false_sample_mode {x y : SampleMode} {v : String}
    (h : SampleMode.set_from_str x v = (false, y)) : y = x := by
  unfold SampleMode.set_from_str at h
  split at h <;> simp_all

theorem set_from_str_false_status {x y : Status} {v : String}
    (h : Status.set_from_str x v = (false, y)) : y = x := by
  unfold Status.set_from_str at h
  split at h <;> simp_all

theorem attr_set_false_data_file {x x' : DataFile} {key value : String}
    (h : DataFile.attr_set x key value = some (false, x')) : x' = x := by
  unfold DataFile.attr_set at h
  split at h <;>
  first
    | exact Option.noConfusion h
    | (simp only [Option.some.injEq, Prod.mk.injEq] at h
       obtain ⟨h1, h2⟩ := h
       first
         | simp [String.set_from_str] at h1
         | (have h3 := set_from_str_false_bool (Prod.ext h1 rfl)
            rw [← h2]
            simp only [h3]))

theorem attr_set_false_clr_mame_pro {x x' : ClrMamePro} {key value : String}
    (h : ClrMamePro.attr_set x key value = some (false, x')) : x' = x := by
  unfold ClrMamePro.attr_set at h
  split at h <;>
  first
    | exact Option.noConfusion h
    | (simp only [Option.some.injEq, Prod.mk.injEq] at h
       obtain ⟨h1, h2⟩ := h
       first
         | simp [String.set_from_str] at h1
         | (first
              | have h3 := set_from_str_false_force_merging (Prod.ext h1 rfl)
              | have h3 := set_from_str_false_force_no_dump (Prod.ext h1 rfl)
              | have h3 := set_from_str_false_force_packing (Prod.ext h1 rfl)
            rw [← h2]
            simp only [h3]))

theorem attr_set_false_rom_center {x x' : RomCenter} {key value : String}
    (h : RomCenter.attr_set x key value = some (false, x')) : x' = x := by
  unfold RomCenter.attr_set at h
  split at h <;>
  first
    | exact Option.noConfusion h
    | (simp only [Option.some.injEq, Prod.mk.injEq] at h
       obtain ⟨h1, h2⟩ := h
       first
         | simp [String.set_from_str] at h1
         | (first
              | have h3 := set_from_str_false_bool (Prod.ext h1 rfl)
              | have h3 := set_from_str_false_rom_mode (Prod.ext h1 rfl)
              | have h3 := set_from_str_false_sample_mode (Prod.ext h1 rfl)
            rw [← h2]
            simp only [h3]))

theorem attr_set_false_game {x x' : Game} {key value : String}
    (h : Game.attr_set x key value = some (false, x')) : x' = x := by
  unfold Game.attr_set at h
  split at h <;>
  first
    | exact Option.noConfusion h
    | (simp only [Option.some.injEq, Prod.mk.injEq] at h
       obtain ⟨h1, h2⟩ := h
       first
         | simp [String.set_from_str] at h1
         | (have h3 := set_from_str_false_bool (Prod.ext h1 rfl)
            rw [← h2]
            simp only [h3]))

theorem attr_set_false_release {x x' : Release} {key value : String}
    (h : Release.attr_set x key value = some (false, x')) : x' = x := by
  unfold Release.attr_set at h
  split at h <;>
  first
    | exact Option.noConfusion h
    | (simp only [Option.some.injEq, Prod.mk.injEq] at h
       obtain ⟨h1, h2⟩ := h
       first
         | simp [String.set_from_str] at h1
         | (have h3 := set_from_str_false_bool (Prod.ext h1 rfl)
            rw [← h2]
            simp only [h3]))

theorem attr_set_false_bios_set {x x' : BiosSet} {key value : String}
    (h : BiosSet.attr_set x key value = some (false, x')) : x' = x := by
  unfold BiosSet.attr_set at h
  split at h <;>
  first
    | exact Option.noConfusion h
    | (simp only [Option.some.injEq, Prod.mk.injEq] at h
       obtain ⟨h1, h2⟩ := h
       first
         | simp [String.set_from_str] at h1
         | (have h3 := set_from_str_false_bool (Prod.ext h1 rfl)
            rw [← h2]
            simp only [h3]))

theorem attr_set_false_rom {x x' : Rom} {key value : String}
    (h : Rom.attr_set x key value = some (false, x')) : x' = x := by
  unfold Rom.attr_set at h
  split at h <;>
  first
    | exact Option.noConfusion h
    | (simp only [Option.some.injEq, Prod.mk.injEq] at h
       obtain ⟨h1, h2⟩ := h
       first
         | simp [String.set_from_str] at h1
         | (have h3 := set_from_str_false_status (Prod.ext h1 rfl)
            rw [← h2]
            simp only [h3]))

theorem attr_set_false_disk {x x' : Disk} {key value : String}
    (h : Disk.attr_set x key value = some (false, x')) : x' = x := by
  unfold Disk.attr_set at h
  split at h <;>
  first
    | exact Option.noConfusion h
    | (simp only [Option.some.injEq, Prod.mk.injEq] at h
       obtain ⟨h1, h2⟩ := h
       first
         | simp [String.set_from_str] at h1
         | (have h3 := set_from_str_false_status (Prod.ext h1 rfl)
            rw [← h2]
            simp only [h3]))

theorem attr_set_false_sample {x x' : Sample} {key value : String}
    (h : Sample.attr_set x key value = some (false, x')) : x' = x := by
  unfold Sample.attr_set at h
  split at h <;>
  first
    | exact Option.noConfusion h
    | (simp only [Option.some.injEq, Prod.mk.injEq] at h
       obtain ⟨h1, h2⟩ := h
       simp [String.set_from_str] at h1)

theorem attr_set_false_archive {x x' : Archive} {key value : String}
    (h : Archive.attr_set x key value = some (false, x')) : x' = x := by
  unfold Archive.attr_set at h
  split at h <;>
  first
    | exact Option.noConfusion h
    | (simp only [Option.some.injEq, Prod.mk.injEq] at h
       obtain ⟨h1, h2⟩ := h
       simp [String.set_from_str] at h1)

/-- A resolved attribute whose coercion fails leaves the element exactly as
it was. -/
theorem attr_set_false_elem {e e' : Elem} {key value : String}
    (h : e.attr_set key value = some (false, e')) : e' = e := by
  cases e with
  | str s => simp [Elem.attr_set] at h
  | header x => simp [Elem.attr_set] at h
  | dataFile x =>
    simp only [Elem.attr_set, Option.map_eq_some'] at h
    obtain ⟨⟨b2, x2⟩, hx, heq⟩ := h
    simp only [Prod.mk.injEq] at heq
    obtain ⟨hb, he⟩ := heq
    subst hb
    rw [← he, attr_set_false_data_file hx]
  | clrMamePro x =>
    simp only [Elem.attr_set, Option.map_eq_some'] at h
    obtain ⟨⟨b2, x2⟩, hx, heq⟩ := h
    simp only [Prod.mk.injEq] at heq
    obtain ⟨hb, he⟩ := heq
    subst hb
    rw [← he, attr_set_false_clr_mame_pro hx]
  | romCenter x =>
    simp only [Elem.attr_set, Option.map_eq_some'] at h
    obtain ⟨⟨b2, x2⟩, hx, heq⟩ := h
    simp only [Prod.mk.injEq] at heq
    obtain ⟨hb, he⟩ := heq
    subst hb
    rw [← he, attr_set_false_rom_center hx]
  | game x =>
    simp only [Elem.attr_set, Option.map_eq_some'] at h
    obtain ⟨⟨b2, x2⟩, hx, heq⟩ := h
    simp only [Prod.mk.injEq] at heq
    obtain ⟨hb, he⟩ := heq
    subst hb
    rw [← he, attr_set_false_game hx]
  | release x =>
    simp only [Elem.attr_set, Option.map_eq_some'] at h
    obtain ⟨⟨b2, x2⟩, hx, heq⟩ := h
    simp only [Prod.mk.injEq] at heq
    obtain ⟨hb, he⟩ := heq
    subst hb
    rw [← he, attr_set_false_release hx]
  | biosSet x =>
    simp only [Elem.attr_set, Option.map_eq_some'] at h
    obtain ⟨⟨b2, x2⟩, hx, heq⟩ := h
    simp only [Prod.mk.injEq] at heq
    obtain ⟨hb, he⟩ := heq
    subst hb
    rw [← he, attr_set_false_bios_set hx]
  | rom x =>
    simp only [Elem.attr_set, Option.map_eq_some'] at h
    obtain ⟨⟨b2, x2⟩, hx, heq⟩ := h
    simp only [Prod.mk.injEq] at heq
    obtain ⟨hb, he⟩ := heq
    subst hb
    rw [← he, attr_set_false_rom hx]
  | disk x =>
    simp only [Elem.attr_set, Option.map_eq_some'] at h
    obtain ⟨⟨b2, x2⟩, hx, heq⟩ := h
    simp only [Prod.mk.injEq] at heq
    obtain ⟨hb, he⟩ := heq
    subst hb
    rw [← he, attr_set_false_disk hx]
  | sample x =>
    simp only [Elem.attr_set, Option.map_eq_some'] at h
    obtain ⟨⟨b2, x2⟩, hx, heq⟩ := h
    simp only [Prod.mk.injEq] at heq
    obtain ⟨hb, he⟩ := heq
    subst hb
    rw [← he, attr_set_false_sample hx]
  | archive x =>
    simp only [Elem.attr_set, Option.map_eq_some'] at h
    obtain ⟨⟨b2, x2⟩, hx, heq⟩ := h
    simp only [Prod.mk.injEq] at heq
    obtain ⟨hb, he⟩ := heq
    subst hb
    rw [← he, attr_set_false_archive hx]

/-!
## Remaining helpers for the claims
-/

theorem parse_game_none {strict : Bool} {n : Node} (h : n.isGame = false) :
    parse_game strict n = none := by
  cases n with
  | text s => rfl
  | element t a cs =>
    by_cases ht : t = "game"
    · subst ht; simp [Node.isGame] at h
    · unfold parse_game
      split <;> simp_all

theorem filterMap_parse_game_length (strict : Bool) :
    ∀ l : List Node,
      (∀ n ∈ l, n.isGame = true → (parse_game strict n).isSome) →
      (l.filterMap (parse_game strict)).length =
        (l.filter (fun n => n.isGame)).length := by
  intro l
  induction l with
  | nil => intro _; simp
  | cons n l ih =>
    intro hall
    have htail := ih fun m hm => hall m (List.mem_cons_of_mem n hm)
    by_cases hg : n.isGame
    · obtain ⟨g, hpg⟩ := Option.isSome_iff_exists.mp
        (hall n (List.mem_cons_self n l) hg)
      simp [hpg, hg, htail]
    · have hg' : n.isGame = false := by revert hg; cases n.isGame <;> simp
      have hpg : parse_game strict n = none := parse_game_none hg'
      simp [hpg, hg', htail]

theorem Elem.attr_set_rom {r : Rom} {key value : String} {b : Bool} {e' : Elem}
    (h : Elem.attr_set (.rom r) key value = some (b, e')) :
    ∃ r2, e' = .rom r2 ∧ Rom.attr_set r key value = some (b, r2) := by
  simp only [Elem.attr_set, Option.map_eq_some'] at h
  obtain ⟨⟨b2, r2⟩, hr, heq⟩ := h
  simp only [Prod.mk.injEq] at heq
  obtain ⟨hb, he⟩ := heq
  subst hb
  exact ⟨r2, he.symm, hr⟩

theorem Rom.attr_set_status {r r' : Rom} {key value : String} {b : Bool}
    (hk : key ≠ "status") (h : Rom.attr_set r key value = some (b, r')) :
    r'.status = r.status := by
  unfold Rom.attr_set at h
  split at h <;>
  first
    | exact Option.noConfusion h
    | exact absurd rfl hk
    | (simp only [Option.some.injEq, Prod.mk.injEq] at h
       obtain ⟨h1, h2⟩ := h
       rw [← h2])

theorem apply_attrs_rom_status :
    ∀ (attrs : List (String × String)) (strict : Bool) (tag : String)
      (r : Rom) (e' : Elem), "status" ∉ attrs.map Prod.fst →
      apply_attrs strict tag (.rom r) attrs = .ok e' →
      ∃ r', e' = .rom r' ∧ r'.status = r.status := by
  intro attrs
  induction attrs with
  | nil =>
    intro strict tag r e' _ h
    simp only [apply_attrs, Except.ok.injEq] at h
    exact ⟨r, h.symm, rfl⟩
  | cons kv attrs ih =>
    intro strict tag r e' hmem h
    obtain ⟨key, value⟩ := kv
    simp only [List.map_cons, List.mem_cons] at hmem
    push_neg at hmem
    obtain ⟨hk, hmem⟩ := hmem
    simp only [apply_attrs] at h
    split at h
    · rename_i e1 heq
      obtain ⟨r1, rfl, hr1⟩ := Elem.attr_set_rom heq
      obtain ⟨r', he, hs⟩ := ih strict tag r1 e' hmem h
      exact ⟨r', he, hs.trans (Rom.attr_set_status (fun hx => hk hx.symm) hr1)⟩
    · rename_i e1 heq
      split at h
      · exact absurd h (by simp)
      · obtain ⟨r1, rfl, hr1⟩ := Elem.attr_set_rom heq
        obtain ⟨r', he, hs⟩ := ih strict tag r1 e' hmem h
        exact ⟨r', he, hs.trans (Rom.attr_set_status (fun hx => hk hx.symm) hr1)⟩
    · split at h
      · exact absurd h (by simp)
      · exact ih strict tag r e' hmem h

theorem Elem.attr_set_disk {d : Disk} {key value : String} {b : Bool}
    {e' : Elem} (h : Elem.attr_set (.disk d) key value = some (b, e')) :
    ∃ d2, e' = .disk d2 ∧ Disk.attr_set d key value = some (b, d2) := by
  simp only [Elem.attr_set, Option.map_eq_some'] at h
  obtain ⟨⟨b2, d2⟩, hd, heq⟩ := h
  simp only [Prod.mk.injEq] at heq
  obtain ⟨hb, he⟩ := heq
  subst hb
  exact ⟨d2, he.symm, hd⟩

theorem disk_attr_set_status {d d' : Disk} {key value : String} {b : Bool}
    (hk : key ≠ "status") (h : Disk.attr_set d key value = some (b, d')) :
    d'.status = d.status := by
  unfold Disk.attr_set at h
  split at h <;>
  first
    | exact Option.noConfusion h
    | exact absurd rfl hk
    | (simp only [Option.some.injEq, Prod.mk.injEq] at h
       obtain ⟨h1, h2⟩ := h
       rw [← h2])

theorem apply_attrs_disk_status :
    ∀ (attrs : List (String × String)) (strict : Bool) (tag : String)
      (d : Disk) (e' : Elem), "status" ∉ attrs.map Prod.fst →
      apply_attrs strict tag (.disk d) attrs = .ok e' →
      ∃ d', e' = .disk d' ∧ d'.status = d.status := by
  intro attrs
  induction attrs with
  | nil =>
    intro strict tag d e' _ h
    simp only [apply_attrs, Except.ok.injEq] at h
    exact ⟨d, h.symm, rfl⟩
  | cons kv attrs ih =>
    intro strict tag d e' hmem h
    obtain ⟨key, value⟩ := kv
    simp only [List.map_cons, List.mem_cons] at hmem
    push_neg at hmem
    obtain ⟨hk, hmem⟩ := hmem
    simp only [apply_attrs] at h
    split at h
    · rename_i e1 heq
      obtain ⟨d1, rfl, hd1⟩ := Elem.attr_set_disk heq
      obtain ⟨d', he, hs⟩ := ih strict tag d1 e' hmem h
      exact ⟨d', he, hs.trans (disk_attr_set_status (fun hx => hk hx.symm) hd1)⟩
    · rename_i e1 heq
      split at h
      · exact absurd h (by simp)
      · obtain ⟨d1, rfl, hd1⟩ := Elem.attr_set_disk heq
        obtain ⟨d', he, hs⟩ := ih strict tag d1 e' hmem h
        exact ⟨d', he, hs.trans (disk_attr_set_status (fun hx => hk hx.symm) hd1)⟩
    · split at h
      · exact absurd h (by simp)
      · exact ih strict tag d e' hmem h

/-- Reading two consecutive occurrences of a text-leaf child tag that binds
a string field of the parent: each occurrence binds the field's current
content, the text event pushes onto it, and the finished leaf is written
back into the same field, so the two texts are appended in order to the
prior content.  The hypotheses are what it means for the tag to be bound to
one field: the first binding sees the current content, the binding after
one install sees the installed content, and two installs collapse to the
last one. -/
theorem read_content_two_text_leaves (strict : Bool) (tag t : String)
    (e : Elem) (s0 A B : String) (rest : List Event)
    (hc : e.child t = some (t, .str s0))
    (hc2 : (e.install t (.str (s0 ++ A))).child t =
      some (t, .str (s0 ++ A)))
    (hi2 : (e.install t (.str (s0 ++ A))).install t (.str (s0 ++ A ++ B)) =
      e.install t (.str (s0 ++ A ++ B))) :
    read_content strict tag e
        ([.startTag t [], .text A, .endTag t,
          .startTag t [], .text B, .endTag t] ++ .endTag tag :: rest) =
      .ok (e.install t (.str (s0 ++ A ++ B)), rest) := by
  simp only [List.cons_append, List.nil_append]
  have h1 : read_content strict t (Elem.str s0)
      (Event.text A :: Event.endTag t :: Event.startTag t [] ::
        Event.text B :: Event.endTag t :: Event.endTag tag :: rest) =
      .ok (.str (s0 ++ A), Event.startTag t [] :: Event.text B ::
        Event.endTag t :: Event.endTag tag :: rest) := by
    rw [read_content_text]
    exact read_content_end _ _ _ _ _
  rw [read_content_start_ok strict tag e t t (.str s0) (.str s0)
    (.str (s0 ++ A)) [] _ _ hc rfl h1]
  have h2 : read_content strict t (Elem.str (s0 ++ A))
      (Event.text B :: Event.endTag t :: Event.endTag tag :: rest) =
      .ok (.str (s0 ++ A ++ B), Event.endTag tag :: rest) := by
    rw [read_content_text]
    exact read_content_end _ _ _ _ _
  rw [read_content_start_ok strict tag (e.install t (.str (s0 ++ A))) t t
    (.str (s0 ++ A)) (.str (s0 ++ A)) (.str (s0 ++ A ++ B)) [] _ _
    hc2 rfl h2]
  rw [hi2]
  exact read_content_end _ _ _ _ _

/-!
## The claims
-/

/-- C2: value coercion. A string field always succeeds and is replaced by
the verbatim attribute value; a boolean field succeeds exactly on the
literals `yes`/`no`; each enumeration field succeeds exactly on its fixed
tokens, each mapped to exactly one variant; every other text fails and
leaves the field's value unchanged. -/
theorem spec_c2_set_from_str :
    ∀ value : String,
      (∀ s : String, s.set_from_str value = (true, value)) ∧
      (∀ b : Bool, b.set_from_str value =
        if value = "yes" then (true, true)
        else if value = "no" then (true, false)
        else (false, b)) ∧
      (∀ x : ForceMerging, x.set_from_str value =
        if value = "none" then (true, ForceMerging.None)
        else if value = "split" then (true, ForceMerging.Split)
        else if value = "full" then (true, ForceMerging.Full)
        else (false, x)) ∧
      (∀ x : ForceNoDump, x.set_from_str value =
        if value = "obsolete" then (true, ForceNoDump.Obsolete)
        else if value = "required" then (true, ForceNoDump.Required)
        else if value = "ignore" then (true, ForceNoDump.Ignore)
        else (false, x)) ∧
      (∀ x : ForcePacking, x.set_from_str value =
        if value = "zip" then (true, ForcePacking.Zip)
        else if value = "unzip" then (true, ForcePacking.Unzip)
        else (false, x)) ∧
      (∀ x : RomMode, x.set_from_str value =
        if value = "merged" then (true, RomMode.Merged)
        else if value = "split" then (true, RomMode.Split)
        else if value = "unmerged" then (true, RomMode.Unmerged)
        else (false, x)) ∧
      (∀ x : SampleMode, x.set_from_str value =
        if value = "merged" then (true, SampleMode.Merged)
        else if value = "unmerged" then (true, SampleMode.Unmerged)
        else (false, x)) ∧
      (∀ x : Status, x.set_from_str value =
        if value = "baddump" then (true, Status.BadDump)
        else if value = "nodump" then (true, Status.NoDump)
        else if value = "good" then (true, Status.Good)
        else if value = "verified" then (true, Status.Verified)
        else (false, x)) := by
  intro value
  refine ⟨fun s => rfl, fun b => ?_, fun x => ?_, fun x => ?_, fun x => ?_,
    fun x => ?_, fun x => ?_, fun x => ?_⟩
  · unfold Bool.set_from_str
    split <;> simp_all
  · unfold ForceMerging.set_from_str
    split <;> simp_all
  · unfold ForceNoDump.set_from_str
    split <;> simp_all
  · unfold ForcePacking.set_from_str
    split <;> simp_all
  · unfold RomMode.set_from_str
    split <;> simp_all
  · unfold SampleMode.set_from_str
    split <;> simp_all
  · unfold Status.set_from_str
    split <;> simp_all

/-- C6: defaults. A default `Rom`/`Disk` has status good, and a `rom` or a
`disk` parsed without a `status` attribute keeps it; a default `Header` has no
`clrmamepro`/`romcenter` profile (`None`, not a defaulted instance), the
profiles becoming `Some` exactly when their element is first seen
(get-or-insert on child-resolve, written back as `Some` on install, and
untouched by every other child a header can bind); and the enumeration
defaults are
merging = split, no-dump = obsolete, packing = zip, rom/bios mode = split,
sample mode = merged. -/
theorem spec_c6_defaults :
    ((default : Rom).status = Status.Good) ∧
    ((default : Disk).status = Status.Good) ∧
    ((default : Header).clr_mame_pro = none) ∧
    ((default : Header).rom_center = none) ∧
    ((default : ForceMerging) = ForceMerging.Split) ∧
    ((default : ForceNoDump) = ForceNoDump.Obsolete) ∧
    ((default : ForcePacking) = ForcePacking.Zip) ∧
    ((default : RomMode) = RomMode.Split) ∧
    ((default : RomCenter).rom_mode = RomMode.Split) ∧
    ((default : RomCenter).bios_mode = RomMode.Split) ∧
    ((default : SampleMode) = SampleMode.Merged) ∧
    ((default : RomCenter).sample_mode = SampleMode.Merged) ∧
    (∀ (strict : Bool) (tag : String) (attrs : List (String × String))
       (e' : Elem), "status" ∉ attrs.map Prod.fst →
       apply_attrs strict tag (.rom default) attrs = .ok e' →
       ∃ r', e' = .rom r' ∧ r'.status = Status.Good) ∧
    (∀ (strict : Bool) (tag : String) (attrs : List (String × String))
       (e' : Elem), "status" ∉ attrs.map Prod.fst →
       apply_attrs strict tag (.disk default) attrs = .ok e' →
       ∃ d', e' = .disk d' ∧ d'.status = Status.Good) ∧
    (∀ h : Header, Header.child h "clrmamepro" =
      some ("clrmamepro", .clrMamePro (h.clr_mame_pro.getD default))) ∧
    (∀ h : Header, Header.child h "romcenter" =
      some ("romcenter", .romCenter (h.rom_center.getD default))) ∧
    (∀ (h : Header) (c : ClrMamePro),
      Header.install h "clrmamepro" (.clrMamePro c) =
        { h with clr_mame_pro := some c }) ∧
    (∀ (h : Header) (r : RomCenter),
      Header.install h "romcenter" (.romCenter r) =
        { h with rom_center := some r }) ∧
    (∀ (h : Header) (s : String),
      ∀ tag ∈ ["name", "description", "category", "version", "date",
        "author", "email", "homepage", "url", "comment"],
      (Header.install h tag (.str s)).clr_mame_pro = h.clr_mame_pro ∧
      (Header.install h tag (.str s)).rom_center = h.rom_center) ∧
    (∀ (h : Header) (r : RomCenter),
      (Header.install h "romcenter" (.romCenter r)).clr_mame_pro =
        h.clr_mame_pro) ∧
    (∀ (h : Header) (c : ClrMamePro),
      (Header.install h "clrmamepro" (.clrMamePro c)).rom_center =
        h.rom_center) := by
  refine ⟨rfl, rfl, rfl, rfl, rfl, rfl, rfl, rfl, rfl, rfl, rfl, rfl,
    ?_, ?_, fun h => rfl, fun h => rfl, fun h c => rfl, fun h r => rfl, ?_,
    fun h r => rfl, fun h c => rfl⟩
  · intro strict tag attrs e' hmem h
    exact apply_attrs_rom_status attrs strict tag default e' hmem h
  · intro strict tag attrs e' hmem h
    exact apply_attrs_disk_status attrs strict tag default e' hmem h
  · intro h s tag htag
    fin_cases htag <;> exact ⟨rfl, rfl⟩

/-- Witness for C6: a `rom` and a `disk` whose attribute lists set only
`name` keep the default status good. -/
theorem spec_c6_witness :
    (apply_attrs true "rom" (.rom default) [("name", "X")] =
      .ok (.rom { (default : Rom) with name := "X" }) ∧
    ({ (default : Rom) with name := "X" }).status = Status.Good) ∧
    (apply_attrs true "disk" (.disk default) [("name", "X")] =
      .ok (.disk { (default : Disk) with name := "X" }) ∧
    ({ (default : Disk) with name := "X" }).status = Status.Good) := by
  obtain ⟨r', her, hsr⟩ :=
    spec_c6_defaults.2.2.2.2.2.2.2.2.2.2.2.2.1 true "rom" [("name", "X")]
      (.rom { (default : Rom) with name := "X" }) (by decide) rfl
  obtain ⟨d', hed, hsd⟩ :=
    spec_c6_defaults.2.2.2.2.2.2.2.2.2.2.2.2.2.1 true "disk" [("name", "X")]
      (.disk { (default : Disk) with name := "X" }) (by decide) rfl
  injection her with her'
  rw [← her'] at hsr
  injection hed with hed'
  rw [← hed'] at hsd
  exact ⟨⟨rfl, hsr⟩, ⟨rfl, hsd⟩⟩

/-- C3: attribute application. An attribute whose name does not resolve
against the bound element, or whose value fails coercion, aborts the whole
parse in strict mode with an `UnexpectedAttribute` error naming the tag,
key and value (the error propagates out of `read_content`), and in lenient
mode is dropped — the element keeps its prior value — while the remaining
attributes of the same element are still applied. -/
theorem spec_c3_unexpected_attribute :
    ∀ (tag key value : String) (e : Elem) (rest : List (String × String)),
      (e.attr_set key value = none ∨
        ∃ e2, e.attr_set key value = some (false, e2)) →
      (apply_attrs true tag e ((key, value) :: rest) =
        .error (.UnexpectedAttribute
          s!"Unexpected attribute \"{key}\"=\"{value}\" in element \"{tag}\"")) ∧
      (apply_attrs false tag e ((key, value) :: rest) =
        apply_attrs false tag e rest) ∧
      (∀ (ptag t ctag : String) (pe ce : Elem)
         (attrs : List (String × String)) (evs : List Event)
         (err : DatReaderError),
        pe.child t = some (ctag, ce) →
        apply_attrs true ctag ce attrs = .error err →
        read_content true ptag pe (.startTag t attrs :: evs) = .error err) := by
  intro tag key value e rest hfail
  refine ⟨?_, ?_, ?_⟩
  · rcases hfail with hnone | ⟨e2, hsome⟩
    · simp only [apply_attrs, hnone]
      rw [if_pos trivial]
    · simp only [apply_attrs, hsome]
      rw [if_pos trivial]
  · rcases hfail with hnone | ⟨e2, hsome⟩
    · simp only [apply_attrs, hnone, if_neg Bool.false_ne_true]
    · simp only [apply_attrs, hsome, if_neg Bool.false_ne_true]
      rw [attr_set_false_elem hsome]
  · intro ptag t ctag pe ce attrs evs err hc ha
    exact read_content_start_attr_error true ptag pe t ctag ce attrs evs err
      hc ha

/-- Witness for C3: an unknown attribute on `datafile` aborts in strict
mode naming tag, key and value, and is dropped in lenient mode with the
following `build` attribute still applied. -/
theorem spec_c3_witness :
    apply_attrs true "datafile" (.dataFile default) [("bogus", "1"), ("build", "B")] =
      .error (.UnexpectedAttribute
        "Unexpected attribute \"bogus\"=\"1\" in element \"datafile\"") ∧
    apply_attrs false "datafile" (.dataFile default) [("bogus", "1"), ("build", "B")] =
      .ok (.dataFile { (default : DataFile) with build := "B" }) := by
  have h := spec_c3_unexpected_attribute "datafile" "bogus" "1"
    (.dataFile default) [("build", "B")] (Or.inl rfl)
  exact ⟨h.1, h.2.1.trans rfl⟩

/-- C4: unexpected elements. A start tag that does not child-resolve
against the bound element fails the parse in strict mode with an
`UnexpectedElement` error naming the child tag and the enclosing tag (a
non-`datafile` element at the top level fails with the top-level variant),
while lenient mode skips the entire well-formed subtree by open/close
counting — interior elements are ignored and reading continues with the
element unchanged, as if the subtree were absent. -/
theorem spec_c4_unexpected_element :
    ∀ (tag t : String) (attrs : List (String × String)) (e : Elem)
      (rest : List Event), e.child t = none →
      (read_content true tag e (.startTag t attrs :: rest) =
        .error (.UnexpectedElement
          s!"Unexpected child element \"{t}\" in element \"{tag}\"")) ∧
      (∀ ns : Nodes,
        read_content false tag e
            (.startTag t attrs :: (ns.events ++ .endTag t :: rest)) =
          read_content false tag e rest) ∧
      (∀ result : Option DataFile, t ≠ "datafile" →
        read_all_from true result (.startTag t attrs :: rest) =
          .error (.UnexpectedElement
            s!"Unexpected top-level element \"{t}\"")) ∧
      (∀ (result : Option DataFile) (ns : Nodes), t ≠ "datafile" →
        read_all_from false result
            (.startTag t attrs :: (ns.events ++ .endTag t :: rest)) =
          read_all_from false result rest) := by
  intro tag t attrs e rest hc
  refine ⟨read_content_start_none_strict tag e t attrs rest hc, ?_, ?_, ?_⟩
  · intro ns
    rw [read_content_start_none_lenient tag e t attrs _ hc]
    rw [show skip_content 1 (ns.events ++ Event.endTag t :: rest) = rest from by
      rw [skip_content_events ns.size ns le_rfl 1 (by omega)]
      simp [skip_content]]
  · intro result ht
    exact read_all_from_other_strict result t attrs rest ht
  · intro result ns ht
    rw [read_all_from_other_lenient result t attrs _ ht]
    rw [show skip_content 1 (ns.events ++ Event.endTag t :: rest) = rest from by
      rw [skip_content_events ns.size ns le_rfl 1 (by omega)]
      simp [skip_content]]

/-- Witness for C4: a bogus wrapper inside a `game` errors in strict mode
and is skipped whole in lenient mode even though it contains a `rom`
element that would otherwise resolve. -/
theorem spec_c4_witness :
    (read_content true "game" (.game default)
        [.startTag "bogus" [], .startTag "rom" [("name", "N")], .endTag "rom",
         .endTag "bogus", .endTag "game"] =
      .error (.UnexpectedElement
        "Unexpected child element \"bogus\" in element \"game\"")) ∧
    (read_content false "game" (.game default)
        [.startTag "bogus" [], .startTag "rom" [("name", "N")], .endTag "rom",
         .endTag "bogus", .endTag "game"] =
      .ok (.game default, [])) := by
  have h := spec_c4_unexpected_element "game" "bogus" [] (.game default)
    [.endTag "game"] rfl
  refine ⟨h.1, ?_⟩
  have h2 := h.2.1 (.cons (.element "rom" [("name", "N")] .nil) .nil)
  simp only [Nodes.events, Node.events, List.cons_append, List.nil_append] at h2
  rw [h2, read_content_end]

/-- Counterexample to C5 as stated: in lenient mode, end of input while the
skipped top-level element `bogus` is still open does not fail — the
top-level skip stops silently at end of input and `read_all` returns the
already-completed document. -/
theorem spec_c5_counterexample :
    read_all false
        [.startTag "datafile" [], .endTag "datafile", .startTag "bogus" []] =
      .ok (default : DataFile) := by
  rfl

/-- C5 (amended): end of input while an element being read is still open is
the fatal unexpected-EOF error naming the enclosing element, also when it
happens inside a subtree being skipped from within an element in lenient
mode; but end of input inside a subtree being skipped at the top level in
lenient mode is not an error — the skip stops silently and `read_all`
returns the already-accumulated document (or the no-root EOF error if no
`datafile` was seen). -/
theorem spec_c5_eof_handling :
    ∀ (strict : Bool) (tag : String) (e : Elem),
      (read_content strict tag e [] =
        .error (.Xml s!"Unexpected EOF while reading element \"{tag}\"")) ∧
      (∀ (t : String) (attrs : List (String × String)), e.child t = none →
        read_content false tag e [.startTag t attrs] =
          .error (.Xml s!"Unexpected EOF while reading element \"{tag}\"")) ∧
      (∀ (t : String) (attrs : List (String × String)) (df : DataFile),
        t ≠ "datafile" →
        read_all_from false (some df) [.startTag t attrs] = .ok df) ∧
      (read_all_from strict none [] =
        .error (.Xml "Unexpected EOF before a datafile element was seen")) := by
  intro strict tag e
  refine ⟨read_content_nil strict tag e, ?_, ?_, read_all_from_nil_none strict⟩
  · intro t attrs hc
    rw [read_content_start_none_lenient tag e t attrs [] hc]
    exact read_content_nil false tag e
  · intro t attrs df ht
    rw [read_all_from_other_lenient (some df) t attrs [] ht]
    exact read_all_from_nil_some false df

/-- Witness for C5 (amended), at concrete inputs: EOF inside an open `game`
element is fatal; EOF inside a subtree skipped from within a `game` in
lenient mode is fatal; EOF inside a top-level skip after a complete
`datafile` returns the document. -/
theorem spec_c5_witness :
    (read_content true "game" (.game default) [] =
      .error (.Xml "Unexpected EOF while reading element \"game\"")) ∧
    (read_content false "game" (.game default) [.startTag "junk" []] =
      .error (.Xml "Unexpected EOF while reading element \"game\"")) ∧
    (read_all_from false (some default) [.startTag "junk" []] =
      .ok (default : DataFile)) := by
  have h := spec_c5_eof_handling true "game" (.game default)
  have h' := spec_c5_eof_handling false "game" (.game default)
  exact ⟨h.1, h'.2.1 "junk" [] rfl, h'.2.2.1 "junk" [] default (by decide)⟩

/-- C8: every attribute in the schema contract resolves to a settable field
of its record type; in particular a game's `id` and `cloneofid` and a rom's
`sha256` resolve and are stored verbatim in the resulting `Game` / `Rom`,
also end-to-end through a full parse. -/
theorem spec_c8_schema_attrs :
    (∀ (g : Game) (v : String),
      Game.attr_set g "id" v = some (true, { g with id := v })) ∧
    (∀ (g : Game) (v : String),
      Game.attr_set g "cloneofid" v = some (true, { g with clone_of_id := v })) ∧
    (∀ (r : Rom) (v : String),
      Rom.attr_set r "sha256" v = some (true, { r with sha256 := v })) ∧
    (∀ k ∈ game_schema_attrs, ∀ (g : Game) (v : String),
      (Game.attr_set g k v).isSome) ∧
    (∀ k ∈ rom_schema_attrs, ∀ (r : Rom) (v : String),
      (Rom.attr_set r k v).isSome) ∧
    (read_all true
        [.startTag "datafile" [],
         .startTag "game" [("id", "5"), ("cloneofid", "7")], .endTag "game",
         .startTag "game" [], .startTag "rom" [("sha256", "abc")],
         .endTag "rom", .endTag "game", .endTag "datafile"] =
      .ok { (default : DataFile) with games :=
        [{ (default : Game) with id := "5", clone_of_id := "7" },
         { (default : Game) with roms :=
            [{ (default : Rom) with sha256 := "abc" }] }] }) := by
  refine ⟨fun g v => rfl, fun g v => rfl, fun r v => rfl, ?_, ?_, rfl⟩
  · intro k hk g v
    fin_cases hk <;> rfl
  · intro k hk r v
    fin_cases hk <;> rfl

/-- Witness for C8: the schema-resolution conjuncts applied at the named
attributes. -/
theorem spec_c8_witness :
    (Game.attr_set default "id" "5" =
      some (true, { (default : Game) with id := "5" })) ∧
    (Game.attr_set default "cloneofid" "7" =
      some (true, { (default : Game) with clone_of_id := "7" })) ∧
    (Rom.attr_set default "sha256" "abc" =
      some (true, { (default : Rom) with sha256 := "abc" })) ∧
    (Game.attr_set default "sourcefile" "s").isSome ∧
    (Rom.attr_set default "serial" "s").isSome :=
  ⟨spec_c8_schema_attrs.1 default "5",
   spec_c8_schema_attrs.2.1 default "7",
   spec_c8_schema_attrs.2.2.1 default "abc",
   spec_c8_schema_attrs.2.2.2.1 "sourcefile" (by decide) default "s",
   spec_c8_schema_attrs.2.2.2.2.1 "serial" (by decide) default "s"⟩

/-- C9 (amended): for every text-leaf child tag that child-resolves to a
string field of its parent — the header's ten text leaves and the game's
`name`, `description`, `year` and `manufacturer` — a repeated occurrence of
the same tag within the same parent scope binds the same field and the text
is pushed onto the field's existing content rather than replacing it, so
the values of repeated occurrences concatenate.  The game's `comment` tag
is the exception: it child-resolves to a freshly pushed string each time,
so repeated comments accumulate as separate entries. -/
theorem spec_c9_text_concat :
    ∀ (strict : Bool) (A B : String) (rest : List Event),
      (∀ h : Header, read_content strict "header" (.header h)
          ([.startTag "name" [], .text A, .endTag "name",
            .startTag "name" [], .text B, .endTag "name"] ++
            .endTag "header" :: rest) =
        .ok (.header { h with name := h.name ++ A ++ B }, rest)) ∧
      (∀ h : Header, read_content strict "header" (.header h)
          ([.startTag "description" [], .text A, .endTag "description",
            .startTag "description" [], .text B, .endTag "description"] ++
            .endTag "header" :: rest) =
        .ok (.header { h with description := h.description ++ A ++ B }, rest)) ∧
      (∀ h : Header, read_content strict "header" (.header h)
          ([.startTag "category" [], .text A, .endTag "category",
            .startTag "category" [], .text B, .endTag "category"] ++
            .endTag "header" :: rest) =
        .ok (.header { h with category := h.category ++ A ++ B }, rest)) ∧
      (∀ h : Header, read_content strict "header" (.header h)
          ([.startTag "version" [], .text A, .endTag "version",
            .startTag "version" [], .text B, .endTag "version"] ++
            .endTag "header" :: rest) =
        .ok (.header { h with version := h.version ++ A ++ B }, rest)) ∧
      (∀ h : Header, read_content strict "header" (.header h)
          ([.startTag "date" [], .text A, .endTag "date",
            .startTag "date" [], .text B, .endTag "date"] ++
            .endTag "header" :: rest) =
        .ok (.header { h with date := h.date ++ A ++ B }, rest)) ∧
      (∀ h : Header, read_content strict "header" (.header h)
          ([.startTag "author" [], .text A, .endTag "author",
            .startTag "author" [], .text B, .endTag "author"] ++
            .endTag "header" :: rest) =
        .ok (.header { h with author := h.author ++ A ++ B }, rest)) ∧
      (∀ h : Header, read_content strict "header" (.header h)
          ([.startTag "email" [], .text A, .endTag "email",
            .startTag "email" [], .text B, .endTag "email"] ++
            .endTag "header" :: rest) =
        .ok (.header { h with email := h.email ++ A ++ B }, rest)) ∧
      (∀ h : Header, read_content strict "header" (.header h)
          ([.startTag "homepage" [], .text A, .endTag "homepage",
            .startTag "homepage" [], .text B, .endTag "homepage"] ++
            .endTag "header" :: rest) =
        .ok (.header { h with homepage := h.homepage ++ A ++ B }, rest)) ∧
      (∀ h : Header, read_content strict "header" (.header h)
          ([.startTag "url" [], .text A, .endTag "url",
            .startTag "url" [], .text B, .endTag "url"] ++
            .endTag "header" :: rest) =
        .ok (.header { h with url := h.url ++ A ++ B }, rest)) ∧
      (∀ h : Header, read_content strict "header" (.header h)
          ([.startTag "comment" [], .text A, .endTag "comment",
            .startTag "comment" [], .text B, .endTag "comment"] ++
            .endTag "header" :: rest) =
        .ok (.header { h with comment := h.comment ++ A ++ B }, rest)) ∧
      (∀ g : Game, read_content strict "game" (.game g)
          ([.startTag "name" [], .text A, .endTag "name",
            .startTag "name" [], .text B, .endTag "name"] ++
            .endTag "game" :: rest) =
        .ok (.game { g with name := g.name ++ A ++ B }, rest)) ∧
      (∀ g : Game, read_content strict "game" (.game g)
          ([.startTag "description" [], .text A, .endTag "description",
            .startTag "description" [], .text B, .endTag "description"] ++
            .endTag "game" :: rest) =
        .ok (.game { g with description := g.description ++ A ++ B }, rest)) ∧
      (∀ g : Game, read_content strict "game" (.game g)
          ([.startTag "year" [], .text A, .endTag "year",
            .startTag "year" [], .text B, .endTag "year"] ++
            .endTag "game" :: rest) =
        .ok (.game { g with year := g.year ++ A ++ B }, rest)) ∧
      (∀ g : Game, read_content strict "game" (.game g)
          ([.startTag "manufacturer" [], .text A, .endTag "manufacturer",
            .startTag "manufacturer" [], .text B, .endTag "manufacturer"] ++
            .endTag "game" :: rest) =
        .ok (.game { g with manufacturer := g.manufacturer ++ A ++ B }, rest)) := by
  intro strict A B rest
  exact ⟨
    fun h => (read_content_two_text_leaves strict "header" "name" (.header h)
      h.name A B rest rfl rfl rfl).trans rfl,
    fun h => (read_content_two_text_leaves strict "header" "description" (.header h)
      h.description A B rest rfl rfl rfl).trans rfl,
    fun h => (read_content_two_text_leaves strict "header" "category" (.header h)
      h.category A B rest rfl rfl rfl).trans rfl,
    fun h => (read_content_two_text_leaves strict "header" "version" (.header h)
      h.version A B rest rfl rfl rfl).trans rfl,
    fun h => (read_content_two_text_leaves strict "header" "date" (.header h)
      h.date A B rest rfl rfl rfl).trans rfl,
    fun h => (read_content_two_text_leaves strict "header" "author" (.header h)
      h.author A B rest rfl rfl rfl).trans rfl,
    fun h => (read_content_two_text_leaves strict "header" "email" (.header h)
      h.email A B rest rfl rfl rfl).trans rfl,
    fun h => (read_content_two_text_leaves strict "header" "homepage" (.header h)
      h.homepage A B rest rfl rfl rfl).trans rfl,
    fun h => (read_content_two_text_leaves strict "header" "url" (.header h)
      h.url A B rest rfl rfl rfl).trans rfl,
    fun h => (read_content_two_text_leaves strict "header" "comment" (.header h)
      h.comment A B rest rfl rfl rfl).trans rfl,
    fun g => (read_content_two_text_leaves strict "game" "name" (.game g)
      g.name A B rest rfl rfl rfl).trans rfl,
    fun g => (read_content_two_text_leaves strict "game" "description" (.game g)
      g.description A B rest rfl rfl rfl).trans rfl,
    fun g => (read_content_two_text_leaves strict "game" "year" (.game g)
      g.year A B rest rfl rfl rfl).trans rfl,
    fun g => (read_content_two_text_leaves strict "game" "manufacturer" (.game g)
      g.manufacturer A B rest rfl rfl rfl).trans rfl⟩

/-- Counterexample to C9 as stated: the game's `comment` tag is a text-leaf
child bound by child-resolve to a `String`, yet a repeated occurrence binds
a freshly pushed element, not the same field — two comments accumulate as
the two entries `["A", "B"]`, not as the concatenation `["AB"]`. -/
theorem spec_c9_counterexample :
    (read_content true "game" (.game default)
        [.startTag "comment" [], .text "A", .endTag "comment",
         .startTag "comment" [], .text "B", .endTag "comment",
         .endTag "game"] =
      .ok (.game { (default : Game) with comments := ["A", "B"] }, [])) ∧
    (["A", "B"] : List String) ≠ ["A" ++ "B"] :=
  ⟨rfl, by decide⟩

/-- C10 (amended): `Game`'s child-resolve accepts `name` and `description`
as text-leaf children bound to the game's `name` and `description` fields;
for `name` this is the same field the `name` attribute sets (`description`
has no attribute arm in `Game::attr`), so `<name>X</name>` nested inside
`<game>` writes `X` into the game's `name` (appended to whatever the field
already held). -/
theorem spec_c10_game_text_children :
    ∀ (strict : Bool) (X : String) (rest : List Event) (g : Game),
      (read_content strict "game" (.game g)
          ([.startTag "name" [], .text X, .endTag "name"] ++
            .endTag "game" :: rest) =
        .ok (.game { g with name := g.name ++ X }, rest)) ∧
      (read_content strict "game" (.game g)
          ([.startTag "description" [], .text X, .endTag "description"] ++
            .endTag "game" :: rest) =
        .ok (.game { g with description := g.description ++ X }, rest)) ∧
      (Game.attr_set g "name" X = some (true, { g with name := X })) := by
  intro strict X rest g
  refine ⟨?_, ?_, rfl⟩
  · simp only [List.cons_append, List.nil_append]
    have h1 : read_content strict "name" (Elem.str g.name)
        (Event.text X :: Event.endTag "name" :: Event.endTag "game" ::
          rest) =
        .ok (.str (g.name ++ X), Event.endTag "game" :: rest) := by
      rw [read_content_text]
      exact read_content_end _ _ _ _ _
    rw [read_content_start_ok strict "game" (.game g) "name" "name"
      (.str g.name) (.str g.name) (.str (g.name ++ X)) [] _ _ rfl rfl h1]
    rw [show (Elem.game g).install "name" (.str (g.name ++ X)) =
      Elem.game { g with name := g.name ++ X } from rfl]
    exact read_content_end _ _ _ _ _
  · simp only [List.cons_append, List.nil_append]
    have h1 : read_content strict "description" (Elem.str g.description)
        (Event.text X :: Event.endTag "description" ::
          Event.endTag "game" :: rest) =
        .ok (.str (g.description ++ X), Event.endTag "game" :: rest) := by
      rw [read_content_text]
      exact read_content_end _ _ _ _ _
    rw [read_content_start_ok strict "game" (.game g) "description"
      "description" (.str g.description) (.str g.description)
      (.str (g.description ++ X)) [] _ _ rfl rfl h1]
    rw [show (Elem.game g).install "description"
        (.str (g.description ++ X)) =
      Elem.game { g with description := g.description ++ X } from rfl]
    exact read_content_end _ _ _ _ _


/-- Counterexample to C10 as stated: `description` is not among the fields
the attributes set — `Game`'s attribute-resolve rejects the key
`description`, so the description field is settable only through the child
tag, never through an attribute. -/
theorem spec_c10_counterexample :
    Game.attr_set default "description" "X" = none := rfl

/-- C7: a second top-level `datafile` sibling is bound to the same single
`DataFile` container (get-or-insert on `result`), so its attributes and
children accumulate into the document built by the first, and the parse
still succeeds with that one accumulated document. -/
theorem spec_c7_second_datafile :
    ∀ (strict : Bool) (a1 a2 : List (String × String))
      (evs1 evs2 : List Event) (d1 d2 d3 d4 : DataFile),
      apply_attrs strict "datafile" (.dataFile default) a1 =
        .ok (.dataFile d1) →
      read_content strict "datafile" (.dataFile d1) evs1 =
        .ok (.dataFile d2, .startTag "datafile" a2 :: evs2) →
      apply_attrs strict "datafile" (.dataFile d2) a2 =
        .ok (.dataFile d3) →
      read_content strict "datafile" (.dataFile d3) evs2 =
        .ok (.dataFile d4, []) →
      read_all strict (.startTag "datafile" a1 :: evs1) = .ok d4 := by
  intro strict a1 a2 evs1 evs2 d1 d2 d3 d4 h1 h2 h3 h4
  show read_all_from strict none _ = _
  rw [read_all_from_datafile_ok strict none a1 evs1
    (.startTag "datafile" a2 :: evs2) (.dataFile d1) (.dataFile d2) h1 h2]
  rw [show (Elem.dataFile d2).get_data_file (Option.getD none default) = d2
    from rfl]
  rw [read_all_from_datafile_ok strict (some d2) a2 evs2 []
    (.dataFile d3) (.dataFile d4) h3 h4]
  rw [show (Elem.dataFile d4).get_data_file (Option.getD (some d2) default) =
    d4 from rfl]
  exact read_all_from_nil_some strict d4

/-- Witness for C7: two sibling `datafile` elements, each holding one game,
parse into one document holding both games in order. -/
theorem spec_c7_witness :
    read_all true
        [.startTag "datafile" [],
         .startTag "game" [("name", "A")], .endTag "game",
         .endTag "datafile",
         .startTag "datafile" [],
         .startTag "game" [("name", "B")], .endTag "game",
         .endTag "datafile"] =
      .ok { (default : DataFile) with games :=
        [{ (default : Game) with name := "A" },
         { (default : Game) with name := "B" }] } := by
  exact spec_c7_second_datafile true [] []
    [.startTag "game" [("name", "A")], .endTag "game", .endTag "datafile",
     .startTag "datafile" [],
     .startTag "game" [("name", "B")], .endTag "game", .endTag "datafile"]
    [.startTag "game" [("name", "B")], .endTag "game", .endTag "datafile"]
    default
    { (default : DataFile) with games := [{ (default : Game) with name := "A" }] }
    { (default : DataFile) with games := [{ (default : Game) with name := "A" }] }
    { (default : DataFile) with games :=
      [{ (default : Game) with name := "A" },
       { (default : Game) with name := "B" }] }
    rfl rfl rfl rfl

/-- C1: for every well-formed document parsed successfully, the resulting
document's `games` sequence has exactly one `Game` per `game` element that
is a direct child of the root `datafile` element, in document order — each
obtained by parsing that element's attributes and subtree starting from a
fresh `Game::default()` (`parse_game`), never overwriting a prior one. -/
theorem spec_c1_games_per_element :
    ∀ (strict : Bool) (a : List (String × String)) (ns : Nodes)
      (df : DataFile),
      read_all strict ((Node.element "datafile" a ns).events) = .ok df →
      df.games = ns.toList.filterMap (parse_game strict) ∧
      df.games.length = (ns.toList.filter (fun n => n.isGame)).length := by
  intro strict a ns df h
  have hev : (Node.element "datafile" a ns).events =
      .startTag "datafile" a :: (ns.events ++ Event.endTag "datafile" :: []) := by
    simp [Node.events]
  rw [hev] at h
  unfold read_all at h
  cases ha : apply_attrs strict "datafile"
      (.dataFile (Option.getD none default)) a with
  | error err =>
    rw [read_all_from_datafile_attr_error strict none a _ err ha] at h
    exact absurd h (by simp)
  | ok e1 =>
    obtain ⟨d1, rfl, hg1⟩ := apply_attrs_dataFile_games ha
    cases hrx : run_content strict "datafile" (.dataFile d1) ns with
    | error err =>
      have hr : read_content strict "datafile" (.dataFile d1)
          (ns.events ++ Event.endTag "datafile" :: []) = .error err := by
        rw [read_content_events ns.size ns le_rfl strict "datafile"
          (.dataFile d1) "datafile" [], hrx]
      rw [read_all_from_datafile_read_error strict none a _ (.dataFile d1)
        err ha hr] at h
      exact absurd h (by simp)
    | ok e2 =>
      obtain ⟨d2, rfl, hg2, hs⟩ := run_content_datafile_games ns.size ns
        le_rfl strict "datafile" d1 e2 hrx
      have hr : read_content strict "datafile" (.dataFile d1)
          (ns.events ++ Event.endTag "datafile" :: []) =
          .ok (.dataFile d2, []) := by
        rw [read_content_events ns.size ns le_rfl strict "datafile"
          (.dataFile d1) "datafile" [], hrx]
      rw [read_all_from_datafile_ok strict none a _ [] (.dataFile d1)
        (.dataFile d2) ha hr] at h
      rw [show (Elem.dataFile d2).get_data_file
          (Option.getD none default) = d2 from rfl] at h
      rw [read_all_from_nil_some strict d2] at h
      have hdf : d2 = df := by simpa using h
      subst hdf
      have hg1' : d1.games = [] := hg1
      constructor
      · rw [hg2, hg1']
        simp
      · rw [hg2, hg1', List.nil_append]
        exact filterMap_parse_game_length strict ns.toList hs

/-- Witness for C1: a document with two `game` children parses to a
document whose games are exactly the two parses, in order. -/
theorem spec_c1_witness :
    (read_all true ((Node.element "datafile" []
        (.cons (.element "game" [("name", "A")] .nil)
          (.cons (.element "game" [("name", "B")] .nil) .nil))).events) =
      .ok { (default : DataFile) with games :=
        [{ (default : Game) with name := "A" },
         { (default : Game) with name := "B" }] }) ∧
    ({ (default : DataFile) with games :=
        [{ (default : Game) with name := "A" },
         { (default : Game) with name := "B" }] } : DataFile).games =
      (Nodes.cons (.element "game" [("name", "A")] .nil)
        (.cons (.element "game" [("name", "B")] .nil) .nil)).toList.filterMap
        (parse_game true) ∧
    ({ (default : DataFile) with games :=
        [{ (default : Game) with name := "A" },
         { (default : Game) with name := "B" }] } : DataFile).games.length =
      ((Nodes.cons (.element "game" [("name", "A")] .nil)
        (.cons (.element "game" [("name", "B")] .nil) .nil)).toList.filter
        (fun n => n.isGame)).length := by
  have hread : read_all true ((Node.element "datafile" []
      (.cons (.element "game" [("name", "A")] .nil)
        (.cons (.element "game" [("name", "B")] .nil) .nil))).events) =
      .ok { (default : DataFile) with games :=
        [{ (default : Game) with name := "A" },
         { (default : Game) with name := "B" }] } := by rfl
  have h := spec_c1_games_per_element true []
    (.cons (.element "game" [("name", "A")] .nil)
      (.cons (.element "game" [("name", "B")] .nil) .nil)) _ hread
  exact ⟨hread, h.1, h.2⟩
